import Mathlib

/-!
# mockos: digest, builder and validator of the mock OS package

A shallow embedding of `utils/mockos/mockos.go`.

* Go strings and byte slices are lists of bytes (`List UInt8`); a nil slice and an
  empty slice are both the empty list, which is how `bytes.Compare` and `append`
  treat them.
* `crypto/md5` is embedded as the MD5 function of RFC 1321, executable on lists.
* `proto.Marshal` / `proto.Unmarshal`, `humanize.ParseBytes`, `crypto/rand` and the
  file system are library code outside the file: the functions that call them take
  them as explicit arguments.
* The claims on the serialized bytes need the codec itself: the section on the
  protocol-buffer wire format describes how the library writes and reads `pb.MockOS`,
  and its theorems hold for every codec that agrees with that description.
-/

/-- A Go string: an immutable sequence of bytes; the conversion to a byte slice copies them. -/
abbrev GoString := List UInt8

/-- The bytes of a string literal of the Go source (UTF-8, as the Go compiler stores it). -/
def str (s : String) : GoString := s.data.flatMap String.utf8EncodeChar

/-- A Go error value, identified by its message. -/
structure GoError where
  msg : GoString
deriving DecidableEq, Repr

/-- Go errors.New: the error carrying the given text. -/
def errors.New (text : GoString) : GoError := ⟨text⟩

/-! ## crypto/md5 (RFC 1321) -/

namespace md5

/-- Additive constants of the 64 steps: the integer part of 2^32 * abs (sin (i + 1)). -/
def K : List Nat := [
  0xd76aa478, 0xe8c7b756, 0x242070db, 0xc1bdceee, 0xf57c0faf, 0x4787c62a, 0xa8304613, 0xfd469501,
  0x698098d8, 0x8b44f7af, 0xffff5bb1, 0x895cd7be, 0x6b901122, 0xfd987193, 0xa679438e, 0x49b40821,
  0xf61e2562, 0xc040b340, 0x265e5a51, 0xe9b6c7aa, 0xd62f105d, 0x02441453, 0xd8a1e681, 0xe7d3fbc8,
  0x21e1cde6, 0xc33707d6, 0xf4d50d87, 0x455a14ed, 0xa9e3e905, 0xfcefa3f8, 0x676f02d9, 0x8d2a4c8a,
  0xfffa3942, 0x8771f681, 0x6d9d6122, 0xfde5380c, 0xa4beea44, 0x4bdecfa9, 0xf6bb4b60, 0xbebfbc70,
  0x289b7ec6, 0xeaa127fa, 0xd4ef3085, 0x04881d05, 0xd9d4d039, 0xe6db99e5, 0x1fa27cf8, 0xc4ac5665,
  0xf4292244, 0x432aff97, 0xab9423a7, 0xfc93a039, 0x655b59c3, 0x8f0ccc92, 0xffeff47d, 0x85845dd1,
  0x6fa87e4f, 0xfe2ce6e0, 0xa3014314, 0x4e0811a1, 0xf7537e82, 0xbd3af235, 0x2ad7d2bb, 0xeb86d391]

/-- Left-rotation amounts of the 64 steps. -/
def S : List Nat := [
  7, 12, 17, 22, 7, 12, 17, 22, 7, 12, 17, 22, 7, 12, 17, 22,
  5, 9, 14, 20, 5, 9, 14, 20, 5, 9, 14, 20, 5, 9, 14, 20,
  4, 11, 16, 23, 4, 11, 16, 23, 4, 11, 16, 23, 4, 11, 16, 23,
  6, 10, 15, 21, 6, 10, 15, 21, 6, 10, 15, 21, 6, 10, 15, 21]

/-- All ones in 32 bits; words are naturals kept below 2^32 by masking. -/
def mask : Nat := 0xffffffff

/-- Rotate a 32-bit word left by c bits. -/
def rotl (x c : Nat) : Nat := ((x <<< c) ||| (x >>> (32 - c))) &&& mask

/-- Bitwise complement of a 32-bit word. -/
def not32 (x : Nat) : Nat := x ^^^ mask

/-- The 32-bit word stored little-endian in (up to) four bytes. -/
def le32 (bs : List Nat) : Nat :=
  bs.getD 0 0 + bs.getD 1 0 * 0x100 + bs.getD 2 0 * 0x10000 + bs.getD 3 0 * 0x1000000

/-- The first n little-endian 32-bit words of a byte sequence. -/
def words : Nat → List Nat → List Nat
  | 0, _ => []
  | n + 1, bs => le32 (bs.take 4) :: words n (bs.drop 4)

/-- The four 32-bit chaining words. -/
structure Digest where
  a : Nat
  b : Nat
  c : Nat
  d : Nat

/-- Initial chaining value. -/
def init : Digest := ⟨0x67452301, 0xefcdab89, 0x98badcfe, 0x10325476⟩

/-- Step i (0 ≤ i < 64) of the compression function over the sixteen message words m. -/
def step (m : List Nat) (s : Digest) (i : Nat) : Digest :=
  let f :=
    if i < 16 then (s.b &&& s.c) ||| (not32 s.b &&& s.d)
    else if i < 32 then (s.d &&& s.b) ||| (not32 s.d &&& s.c)
    else if i < 48 then s.b ^^^ s.c ^^^ s.d
    else s.c ^^^ (s.b ||| not32 s.d)
  let g :=
    if i < 16 then i
    else if i < 32 then (5 * i + 1) % 16
    else if i < 48 then (3 * i + 5) % 16
    else (7 * i) % 16
  let t := (f + s.a + K.getD i 0 + m.getD g 0) &&& mask
  ⟨s.d, (s.b + rotl t (S.getD i 0)) &&& mask, s.b, s.c⟩

/-- Compression of one 64-byte block into the chaining value. -/
def block (s : Digest) (chunk : List Nat) : Digest :=
  let r := (List.range 64).foldl (step (words 16 chunk)) s
  ⟨(s.a + r.a) &&& mask, (s.b + r.b) &&& mask, (s.c + r.c) &&& mask, (s.d + r.d) &&& mask⟩

/-- Compression of the first n 64-byte blocks of a byte sequence, in order. -/
def blocks : Nat → List Nat → Digest → Digest
  | 0, _, s => s
  | n + 1, bs, s => blocks n (bs.drop 64) (block s (bs.take 64))

/-- The n low-order bytes of x, least significant first. -/
def leBytes : Nat → Nat → List UInt8
  | 0, _ => []
  | n + 1, x => UInt8.ofNat (x % 256) :: leBytes n (x / 256)

/-- Message padding: a 0x80 byte, zero bytes up to 56 modulo 64, then the bit length
as a 64-bit little-endian integer. -/
def pad (msg : List UInt8) : List UInt8 :=
  msg ++ [0x80] ++ List.replicate ((119 - msg.length % 64) % 64) 0
    ++ leBytes 8 ((msg.length * 8) % 2 ^ 64)

/-- Go md5.Sum: the MD5 checksum of the data, sixteen bytes. -/
def Sum (msg : List UInt8) : List UInt8 :=
  let p := (pad msg).map UInt8.toNat
  let r := blocks (p.length / 64) p init
  leBytes 4 r.a ++ leBytes 4 r.b ++ leBytes 4 r.c ++ leBytes 4 r.d

end md5

/-! ## bytes.Compare -/

/-- Go bytes.Compare: 0 if a = b, -1 if a < b, +1 if a > b, lexicographically;
a nil argument is equivalent to an empty slice. -/
def bytes.Compare : List UInt8 → List UInt8 → Int
  | [], [] => 0
  | [], _ :: _ => -1
  | _ :: _, [] => 1
  | a :: as, b :: bs => if a < b then -1 else if b < a then 1 else bytes.Compare as bs

/-! ## The package -/

/-- Modelled from the spec: the message type pb.MockOS generated into utils/mockos/pb,
which is not among the sources; the six fields are those mockos.go reads and writes. -/
structure pb.MockOS where
  Version : GoString := []
  Cookie : GoString := []
  Padding : List UInt8 := []
  Incompatible : Bool := false
  ActivationFailMessage : GoString := []
  Hash : List UInt8 := []
deriving DecidableEq, Repr

/-- The constant cookie of mockos.go. -/
def cookie : GoString := str "cookiestring"

/-- The type OS of mockos.go: a struct embedding pb.MockOS. -/
structure OS where
  MockOS : pb.MockOS
deriving DecidableEq, Repr

/-- The map literal of calcHash indexed by the flag; a key that is absent gives the zero byte. -/
def flagByte (b : Bool) : UInt8 := (List.lookup b [(false, 0), (true, 1)]).getD 0

/-- calcHash returns the md5 hash of the OS. -/
def calcHash (os : OS) : List UInt8 :=
  let bb := os.MockOS.Version
  let bb := bb ++ os.MockOS.Cookie
  let bb := bb ++ os.MockOS.Padding
  let bb := bb ++ [flagByte os.MockOS.Incompatible]
  let bb := bb ++ os.MockOS.ActivationFailMessage
  let hash := md5.Sum bb
  hash

/-- Hash calculates the hash of the MockOS and embeds it in the package. -/
def OS.Hash (os : OS) : OS :=
  { os with MockOS := { os.MockOS with Hash := calcHash os } }

/-- CheckHash calculates the hash of the MockOS and checks against the embedded hash. -/
def OS.CheckHash (os : OS) : Bool :=
  bytes.Compare os.MockOS.Hash (calcHash os) == 0

/-! ## The install errors of the gNOI OS service -/

/-- Modelled from the spec: the enumeration InstallError.Type generated into gnoi/os/pb,
which is not among the sources; mockos.go names PARSE_FAIL, INTEGRITY_FAIL and INCOMPATIBLE. -/
inductive osPb.InstallError_Type where
  | UNSPECIFIED
  | INCOMPATIBLE
  | TOO_LARGE
  | PARSE_FAIL
  | INTEGRITY_FAIL
  | INSTALL_RUN_PACKAGE
  | INSTALL_IN_PROGRESS
  | UNEXPECTED_SWITCHOVER
  | SYNC_FAIL
deriving DecidableEq, Repr

/-- Modelled from the spec: the message osPb.InstallError (gnoi/os/pb, not among the sources):
an error type (the field Type, a reserved word here) and a detail string, each with its
zero value when not set. -/
structure osPb.InstallError where
  Type_ : osPb.InstallError_Type := .UNSPECIFIED
  Detail : GoString := []
deriving DecidableEq, Repr

/-- Modelled from the spec: the wrapper osPb.InstallResponse_InstallError (gnoi/os/pb, not
among the sources) holding one InstallError. -/
structure osPb.InstallResponse_InstallError where
  InstallError : osPb.InstallError
deriving DecidableEq, Repr

/-! ## The codec -/

/-- The two functions of the protocol-buffer library that mockos.go calls, for the message
pb.MockOS. Marshal returns the encoding or an error. Unmarshal resets the message, fills it
from the bytes and returns the message it has reached together with the error, if any. -/
structure Proto where
  Marshal : pb.MockOS → Except GoError (List UInt8)
  Unmarshal : List UInt8 → pb.MockOS × Option GoError

/-! ## ValidateOS -/

/-- ValidateOS unmarshals the serialized OS proto and verifies the OS package integrity.
The result is the triple (package, error, install error) of the Go function, nil being none. -/
def ValidateOS (proto : Proto) (buf : List UInt8) :
    Option OS × Option GoError × Option osPb.InstallResponse_InstallError :=
  let mockOs : OS := ⟨(proto.Unmarshal buf).1⟩
  match (proto.Unmarshal buf).2 with
  | some err => (none, some err, some ⟨{ Type_ := .PARSE_FAIL }⟩)
  | none =>
    if !mockOs.CheckHash then
      (none, some (errors.New (str "Hash check failed!")), some ⟨{ Type_ := .INTEGRITY_FAIL }⟩)
    else if mockOs.MockOS.Incompatible then
      (none, some (errors.New (str "OS Unsupported!")),
        some ⟨{ Type_ := .INCOMPATIBLE, Detail := str "Unsupported OS Version" }⟩)
    else
      (some mockOs, none, none)

/-! ## The file system -/

/-- The files GenerateOS can see: the content of every path that exists, and the failures
the operating system answers with, which the program cannot influence. -/
structure FileSystem where
  files : GoString → Option (List UInt8)
  statFault : GoString → Option GoError
  createFault : GoString → Option GoError
  writeFault : GoString → List UInt8 → Option (Nat × GoError)

/-- The error result of os.Stat. -/
inductive StatError where
  | nil
  | notExist
  | other (e : GoError)
deriving DecidableEq, Repr

/-- Go os.Stat, error result only: nil for a path that exists, a not-exist error for one
that does not, another error when the path cannot be examined. -/
def FileSystem.Stat (fs : FileSystem) (name : GoString) : StatError :=
  match fs.statFault name with
  | some e => .other e
  | none =>
    match fs.files name with
    | some _ => .nil
    | none => .notExist

/-- Go os.IsNotExist. -/
def os.IsNotExist : StatError → Bool
  | .notExist => true
  | _ => false

/-- Go os.Create: creates or truncates the named file, leaving it empty, unless it fails. -/
def FileSystem.Create (fs : FileSystem) (name : GoString) : FileSystem × Option GoError :=
  match fs.createFault name with
  | some e => (fs, some e)
  | none => ({ fs with files := fun p => if p = name then some [] else fs.files p }, none)

/-- The bytes of a write reaching the open file: all of them are appended, or, on a failure,
the first k of them and the error is returned. A write of no bytes does nothing. -/
def FileSystem.Write (fs : FileSystem) (name : GoString) (data : List UInt8) :
    FileSystem × Option GoError :=
  if data = [] then (fs, none)
  else
    match fs.writeFault name data with
    | some (k, e) =>
      ({ fs with files := fun p =>
          if p = name then some ((fs.files name).getD [] ++ data.take k) else fs.files p }, some e)
    | none =>
      ({ fs with files := fun p =>
          if p = name then some ((fs.files name).getD [] ++ data) else fs.files p }, none)

/-! ## GenerateOS -/

/-- Go make for a byte slice: n zero bytes. -/
def make (n : Nat) : List UInt8 := List.replicate n 0

/-- Go rand.Read: every byte of the buffer is replaced by the next byte of the random source. -/
def rand.Read (source : Nat → UInt8) (buf : List UInt8) : List UInt8 :=
  (List.range buf.length).map source

/-- The package GenerateOS assembles (its local variable mockOs, after the call of Hash)
once the size has been parsed into bufferSize. -/
def GenerateOS.mockOs (source : Nat → UInt8) (version : GoString) (bufferSize : Nat)
    (activationFailMessage : GoString) (incompatible : Bool) : OS :=
  let buf := make bufferSize
  let buf := rand.Read source buf
  let mockOs : OS := ⟨{
    Version := version
    Cookie := cookie
    Padding := buf
    Incompatible := incompatible
    ActivationFailMessage := activationFailMessage }⟩
  mockOs.Hash

/-- GenerateOS creates a Mock OS file for gNOI target use. The result is the returned error
(none for nil) and the file system it leaves. The buffered writer hands the bytes to the file
in a single write, made by Write or by Flush, and either error is returned unchanged. -/
def GenerateOS (proto : Proto) (ParseBytes : GoString → Except GoError Nat)
    (source : Nat → UInt8) (fs : FileSystem)
    (filename version size activationFailMessage : GoString) (incompatible : Bool) :
    Option GoError × FileSystem :=
  if !os.IsNotExist (fs.Stat filename) then
    (some (errors.New (str "File already exists")), fs)
  else
    match fs.Create filename with
    | (fs, some err) => (some err, fs)
    | (fs, none) =>
      match ParseBytes size with
      | .error err => (some err, fs)
      | .ok bufferSize =>
        let mockOs := GenerateOS.mockOs source version bufferSize activationFailMessage incompatible
        match proto.Marshal mockOs.MockOS with
        | .error err => (some err, fs)
        | .ok out =>
          match fs.Write filename out with
          | (fs, some err) => (some err, fs)
          | (fs, none) => (none, fs)

/-! ## humanize.ParseBytes -/

namespace humanize

/-- The table bytesSizeTable of go-humanize: SI units are powers of 1000, IEC units powers
of 1024. -/
def bytesSizeTable : List (GoString × Nat) := [
  (str "b", 1),
  (str "kib", 2 ^ 10), (str "kb", 10 ^ 3),
  (str "mib", 2 ^ 20), (str "mb", 10 ^ 6),
  (str "gib", 2 ^ 30), (str "gb", 10 ^ 9),
  (str "tib", 2 ^ 40), (str "tb", 10 ^ 12),
  (str "pib", 2 ^ 50), (str "pb", 10 ^ 15),
  (str "eib", 2 ^ 60), (str "eb", 10 ^ 18),
  (str "", 1),
  (str "ki", 2 ^ 10), (str "k", 10 ^ 3),
  (str "mi", 2 ^ 20), (str "m", 10 ^ 6),
  (str "gi", 2 ^ 30), (str "g", 10 ^ 9),
  (str "ti", 2 ^ 40), (str "t", 10 ^ 12),
  (str "pi", 2 ^ 50), (str "p", 10 ^ 15),
  (str "ei", 2 ^ 60), (str "e", 10 ^ 18)]

/-- A byte of the numeric part: an ASCII digit, a point or a comma. -/
def isNumChar (c : UInt8) : Bool := (48 ≤ c && c ≤ 57) || c == 46 || c == 44

/-- ASCII white space, as strings.TrimSpace removes it. -/
def isSpace (c : UInt8) : Bool := c == 32 || (9 ≤ c && c ≤ 13)

/-- ASCII lower-casing of one byte, as strings.ToLower does it. -/
def toLower (c : UInt8) : UInt8 := if 65 ≤ c && c ≤ 90 then c + 32 else c

/-- Go strings.TrimSpace on ASCII text. -/
def trimSpace (s : GoString) : GoString :=
  ((s.dropWhile isSpace).reverse.dropWhile isSpace).reverse

/-- The value of a sequence of ASCII digits. -/
def digitsValue (ds : List UInt8) : Nat := ds.foldl (fun n d => 10 * n + (d.toNat - 48)) 0

/-- The function ParseBytes of go-humanize on the inputs where it computes without rounding:
ASCII text whose numeric part is a decimal integer (commas allowed) and whose product with
the unit is below 2^53, so that the float64 arithmetic of the library is exact. The result is
none outside this fragment (non-ASCII text, a fraction, a larger product), where this
development says nothing about the library. -/
def ParseBytes (s : GoString) : Option (Except GoError Nat) :=
  if s.any (fun c => 128 ≤ c) then none
  else
    let num := s.takeWhile isNumChar
    let num := num.filter (fun c => c != 44)
    if num.any (fun c => c == 46) then none
    else if num = [] then
      some (.error (errors.New (str "strconv.ParseFloat: parsing " ++ [34, 34] ++ str ": invalid syntax")))
    else
      let f := digitsValue num
      let extra := (trimSpace (s.dropWhile isNumChar)).map toLower
      match bytesSizeTable.lookup extra with
      | some m => if f * m < 2 ^ 53 then some (.ok (f * m)) else none
      | none => some (.error (errors.New (str "unhandled size name: " ++ extra)))

/-- A size parser behaves as go-humanize when it returns what ParseBytes of the library
returns on every input of the fragment above. -/
def Agrees (parse : GoString → Except GoError Nat) : Prop :=
  ∀ s r, ParseBytes s = some r → parse s = r

/-- The library function completed outside the fragment by an error, to have one concrete
size parser. -/
def parseOrReject (s : GoString) : Except GoError Nat :=
  (ParseBytes s).getD (.error (errors.New (str "size outside the modelled fragment")))

end humanize

/-! ## A concrete codec, file system and random source

The theorems below hold for every codec. To instantiate them, this section fixes one
codec that is easy to compute with: a byte field is written as a run of (1, byte) pairs
closed by a 0 byte, the flag as one byte. It stands for no wire format in particular. -/

namespace framed

/-- Encoding of a byte field. -/
def putBytes (xs : List UInt8) : List UInt8 := xs.flatMap (fun b => [1, b]) ++ [0]

/-- Decoding of a byte field at the head of the input: the field and the rest. -/
def getBytes : List UInt8 → Option (List UInt8 × List UInt8)
  | [] => none
  | [t] => if t = 0 then some ([], []) else none
  | t :: b :: rest =>
    if t = 0 then some ([], b :: rest)
    else if t = 1 then (getBytes rest).map (fun r => (b :: r.1, r.2))
    else none

/-- Encoding of a message: the six fields in declaration order. -/
def encode (m : pb.MockOS) : List UInt8 :=
  putBytes m.Version ++ (putBytes m.Cookie ++ (putBytes m.Padding ++
    (flagByte m.Incompatible :: (putBytes m.ActivationFailMessage ++ putBytes m.Hash))))

/-- Decoding of a message; none when the input is not an encoding. -/
def decode (buf : List UInt8) : Option pb.MockOS :=
  (getBytes buf).bind fun v =>
  (getBytes v.2).bind fun c =>
  (getBytes c.2).bind fun p =>
  match p.2 with
  | [] => none
  | f :: rest =>
    if 1 < f then none
    else
      (getBytes rest).bind fun a =>
      (getBytes a.2).bind fun h =>
      if h.2 = [] then
        some {
          Version := v.1
          Cookie := c.1
          Padding := p.1
          Incompatible := f == 1
          ActivationFailMessage := a.1
          Hash := h.1 }
      else none

/-- The codec: Marshal never fails, Unmarshal fails on what is not an encoding and then
leaves the message reset. -/
def proto : Proto where
  Marshal m := .ok (encode m)
  Unmarshal buf :=
    match decode buf with
    | some m => (m, none)
    | none => ({}, some (errors.New (str "framed: cannot parse")))

end framed

/-- A file system with no files and no failures. -/
def emptyFS : FileSystem where
  files _ := none
  statFault _ := none
  createFault _ := none
  writeFault _ _ := none

/-- A fixed byte stream standing for the random source. -/
def sampleSource (i : Nat) : UInt8 := UInt8.ofNat (37 * i + 11)

/-- A package as GenerateOS builds it: version 1.2.3, four bytes of padding, compatible. -/
def sampleOS : OS := GenerateOS.mockOs sampleSource (str "1.2.3") 4 [] false

/-- A package as GenerateOS builds it with the incompatible flag set. -/
def incompatibleOS : OS := GenerateOS.mockOs sampleSource (str "1.2.3") 4 [] true

/-- The sample package with its flag set after the digest was embedded: the stored digest
no longer matches. -/
def corruptedOS : OS := { sampleOS with MockOS := { sampleOS.MockOS with Incompatible := true } }

/-- A package carrying another cookie than the constant, with the digest of its own fields. -/
def foreignCookieOS : OS :=
  OS.Hash ⟨{ Version := str "1.2.3", Cookie := str "anothercookie", Padding := [1, 2, 3] }⟩

/-- The sample package with its cookie replaced after the digest was embedded. -/
def staleCookieOS : OS :=
  { sampleOS with MockOS := { sampleOS.MockOS with Cookie := str "anothercookie" } }

/-- The bytes left in the file os.img by GenerateOS called on the empty file system with
version 1.2.3, size 1KB, no activation-fail message and the flag off, the size parser
being that of go-humanize. -/
def kilobyteImage : List UInt8 :=
  ((GenerateOS framed.proto humanize.parseOrReject sampleSource emptyFS
    (str "os.img") (str "1.2.3") (str "1KB") [] false).2.files (str "os.img")).getD []

/-- A codec whose Unmarshal stops on every input with the given message reached and the
given error. -/
def stoppingProto (m : pb.MockOS) (err : GoError) : Proto where
  Marshal _ := .error err
  Unmarshal _ := (m, some err)

/-- A file system without failures in which only the file os.img exists, holding three bytes. -/
def oneFileFS : FileSystem where
  files p := if p = str "os.img" then some [7, 8, 9] else none
  statFault _ := none
  createFault _ := none
  writeFault _ _ := none

/-- The package all of whose fields have their zero value. -/
def zeroOS : OS := ⟨{}⟩


/-- A package with no padding, the flag on and a message of one zero byte, carrying the
digest of its own fields. -/
def flagOnOS : OS :=
  OS.Hash ⟨{ Version := str "1.2.3", Cookie := cookie, Incompatible := true,
             ActivationFailMessage := [0] }⟩

/-- A package with the padding byte 1, the flag off and no message, carrying the digest
stored in flagOnOS. -/
def paddingOneOS : OS :=
  ⟨{ Version := str "1.2.3", Cookie := cookie, Padding := [1], Hash := flagOnOS.MockOS.Hash }⟩


/-! ## The protocol-buffer wire format

The codec of mockos.go is the protocol-buffer library (github.com/golang/protobuf/proto)
applied to the proto3 message pb.MockOS. This section describes how that library writes and
reads the message, on the inputs where its releases agree: tags and lengths are base-128
varints, strings and byte fields are length-delimited, a bool is a varint, fields holding
their zero value are not written, fields are written in field-number order, unknown fields
are skipped, and a proto3 string that is not valid UTF-8 is an error. -/

namespace protobuf

/-- Outcome of the library on an input: a value, an error, or an input this description
does not cover (field number 0, numbers that overflow, groups that are not closed by their
own end-group tag), on which nothing is said here. -/
inductive Decoded (α : Type) where
  | value (a : α)
  | malformed
  | unmodelled
deriving DecidableEq, Repr

/-- Modelled from the spec: the field number of version in pb.MockOS. The message
descriptor (utils/mockos/pb) is not among the sources; the six fields are numbered in the
order in which the spec lists the fields of the serialized record. -/
def numVersion : Nat := 1

/-- Modelled from the spec: the field number of cookie in pb.MockOS. -/
def numCookie : Nat := 2

/-- Modelled from the spec: the field number of padding in pb.MockOS. -/
def numPadding : Nat := 3

/-- Modelled from the spec: the field number of incompatible in pb.MockOS. -/
def numIncompatible : Nat := 4

/-- Modelled from the spec: the field number of activationFailMessage in pb.MockOS. -/
def numActivationFailMessage : Nat := 5

/-- Modelled from the spec: the field number of the digest (Hash) in pb.MockOS. -/
def numHash : Nat := 6

/-- Base-128 varint of n, least significant group first, in at most the given number of
bytes. -/
def putVarint : Nat → Nat → List UInt8
  | 0, _ => []
  | fuel + 1, n =>
    if n < 128 then [UInt8.ofNat n]
    else UInt8.ofNat (n % 128 + 128) :: putVarint fuel (n / 128)

/-- Reads a varint of at most the given number of bytes: the value and the rest of the
input, or none when the input ends first or no final byte comes in time. -/
def getVarint : Nat → List UInt8 → Option (Nat × List UInt8)
  | 0, _ => none
  | _ + 1, [] => none
  | fuel + 1, b :: rest =>
    if b < 128 then some (b.toNat, rest)
    else (getVarint fuel rest).map fun r => (b.toNat - 128 + 128 * r.1, r.2)

/-- A varint of at most ten bytes holding a 64-bit value. -/
def readVarint (buf : List UInt8) : Decoded (Nat × List UInt8) :=
  match getVarint 10 buf with
  | none => .malformed
  | some r => if r.1 < 2 ^ 64 then .value r else .unmodelled

/-- A length-delimited payload: a varint length, then that many bytes. -/
def readBytes (buf : List UInt8) : Decoded (List UInt8 × List UInt8) :=
  match readVarint buf with
  | .value (n, rest) => if rest.length < n then .malformed else .value (rest.take n, rest.drop n)
  | .malformed => .malformed
  | .unmodelled => .unmodelled

/-- For the first byte of a UTF-8 sequence: the number of bytes that follow it and the range
allowed for the first of them; none for a byte that cannot start a sequence. -/
def utf8First (b : UInt8) : Option (Nat × UInt8 × UInt8) :=
  if b < 0x80 then some (0, 0x80, 0xBF)
  else if b < 0xC2 then none
  else if b ≤ 0xDF then some (1, 0x80, 0xBF)
  else if b = 0xE0 then some (2, 0xA0, 0xBF)
  else if b = 0xED then some (2, 0x80, 0x9F)
  else if b ≤ 0xEF then some (2, 0x80, 0xBF)
  else if b = 0xF0 then some (3, 0x90, 0xBF)
  else if b ≤ 0xF3 then some (3, 0x80, 0xBF)
  else if b = 0xF4 then some (3, 0x80, 0x8F)
  else none

/-- Go utf8.Valid, with one unit of fuel for each sequence. -/
def validUTF8Aux : Nat → List UInt8 → Bool
  | _, [] => true
  | 0, _ :: _ => false
  | fuel + 1, b :: rest =>
    match utf8First b with
    | none => false
    | some (n, lo, hi) =>
      (rest.take n).length == n &&
      (match rest.take n with
        | [] => true
        | c :: cs => lo ≤ c && c ≤ hi && cs.all (fun x => 0x80 ≤ x && x ≤ 0xBF)) &&
      validUTF8Aux fuel (rest.drop n)

/-- Go utf8.Valid: the bytes are a sequence of well-formed UTF-8 encodings. -/
def validUTF8 (s : List UInt8) : Bool := validUTF8Aux s.length s

/-- A string field: the payload is stored when it is valid UTF-8. -/
def stringField (buf : List UInt8) (set : GoString → pb.MockOS) :
    Decoded (List UInt8 × pb.MockOS) :=
  match readBytes buf with
  | .value (s, rest) => if validUTF8 s then .value (rest, set s) else .malformed
  | .malformed => .malformed
  | .unmodelled => .unmodelled

/-- A bytes field: the payload is stored as it is. -/
def bytesField (buf : List UInt8) (set : List UInt8 → pb.MockOS) :
    Decoded (List UInt8 × pb.MockOS) :=
  match readBytes buf with
  | .value (s, rest) => .value (rest, set s)
  | .malformed => .malformed
  | .unmodelled => .unmodelled

/-- A bool field: a varint, true when it is not zero. -/
def boolField (buf : List UInt8) (set : Bool → pb.MockOS) :
    Decoded (List UInt8 × pb.MockOS) :=
  match readVarint buf with
  | .value (v, rest) => .value (rest, set (v != 0))
  | .malformed => .malformed
  | .unmodelled => .unmodelled

/-- The value of a field that is not a group, skipped according to its wire type: the rest
of the input. -/
def skipValue (wire : Nat) (buf : List UInt8) : Decoded (List UInt8) :=
  if wire = 0 then
    match readVarint buf with
    | .value (_, rest) => .value rest
    | .malformed => .malformed
    | .unmodelled => .unmodelled
  else if wire = 1 then
    if buf.length < 8 then .malformed else .value (buf.drop 8)
  else if wire = 2 then
    match readBytes buf with
    | .value (_, rest) => .value rest
    | .malformed => .malformed
    | .unmodelled => .unmodelled
  else if wire = 5 then
    if buf.length < 4 then .malformed else .value (buf.drop 4)
  else if wire = 3 ∨ wire = 4 then .unmodelled
  else .malformed

/-- Skipping the content of groups: the list holds the field numbers of the groups that are
open, innermost first, and the result is the input after the outermost of them is closed.
Inside a group every field is skipped by its wire type, a start-group tag opens a group and
an end-group tag closes the innermost one. The releases of the library disagree on an
end-group tag with another field number, on field number 0 and on very deep nesting: these
are not covered. Every turn consumes at least one byte. -/
def skipGroup : Nat → List Nat → List UInt8 → Decoded (List UInt8)
  | _, [], buf => .value buf
  | 0, _ :: _, _ => .unmodelled
  | fuel + 1, num :: more, buf =>
    match readVarint buf with
    | .value (x, rest) =>
      if x / 8 = 0 ∨ 2 ^ 29 ≤ x / 8 then .unmodelled
      else if x % 8 = 4 then
        if x / 8 = num then skipGroup fuel more rest else .unmodelled
      else if x % 8 = 3 then
        if more.length < 1000 then skipGroup fuel (x / 8 :: num :: more) rest else .unmodelled
      else
        match skipValue (x % 8) rest with
        | .value rest => skipGroup fuel (num :: more) rest
        | .malformed => .malformed
        | .unmodelled => .unmodelled
    | .malformed => .malformed
    | .unmodelled => .unmodelled

/-- A field that is not one of the six, or has another wire type than declared: its value
is skipped according to the wire type, a group up to its end-group tag. -/
def skipField (num wire : Nat) (buf : List UInt8) (m : pb.MockOS) :
    Decoded (List UInt8 × pb.MockOS) :=
  match (if wire = 3 then skipGroup (buf.length + 1) [num] buf else skipValue wire buf) with
  | .value rest => .value (rest, m)
  | .malformed => .malformed
  | .unmodelled => .unmodelled

/-- The field with the given number and wire type, read from the bytes after its tag. -/
def field (num wire : Nat) (buf : List UInt8) (m : pb.MockOS) :
    Decoded (List UInt8 × pb.MockOS) :=
  if num = 0 ∨ 2 ^ 29 ≤ num then .unmodelled
  else if num = numVersion ∧ wire = 2 then
    stringField buf fun s => { m with Version := s }
  else if num = numCookie ∧ wire = 2 then
    stringField buf fun s => { m with Cookie := s }
  else if num = numPadding ∧ wire = 2 then
    bytesField buf fun s => { m with Padding := s }
  else if num = numIncompatible ∧ wire = 0 then
    boolField buf fun b => { m with Incompatible := b }
  else if num = numActivationFailMessage ∧ wire = 2 then
    stringField buf fun s => { m with ActivationFailMessage := s }
  else if num = numHash ∧ wire = 2 then
    bytesField buf fun s => { m with Hash := s }
  else skipField num wire buf m

/-- The decoding loop: while bytes remain, a tag (field number times 8 plus wire type) and
the field it announces. Every turn consumes at least one byte, so fuel equal to the length
of the input is enough. -/
def fields : Nat → List UInt8 → pb.MockOS → Decoded pb.MockOS
  | _, [], m => .value m
  | 0, _ :: _, _ => .unmodelled
  | fuel + 1, b :: bs, m =>
    match readVarint (b :: bs) with
    | .value (x, rest) =>
      match field (x / 8) (x % 8) rest m with
      | .value (rest, m) => fields fuel rest m
      | .malformed => .malformed
      | .unmodelled => .unmodelled
    | .malformed => .malformed
    | .unmodelled => .unmodelled

/-- What proto.Unmarshal makes of the bytes: the message is reset, then filled. -/
def decode (buf : List UInt8) : Decoded pb.MockOS := fields buf.length buf {}

/-- A field of pb.MockOS as it stands on the wire. -/
inductive Field where
  | version (s : GoString)
  | cookie (s : GoString)
  | padding (p : List UInt8)
  | incompatible
  | activationFailMessage (s : GoString)
  | hash (h : List UInt8)
deriving DecidableEq, Repr

/-- A length-delimited field on the wire: tag, length, payload. -/
def putLen (num : Nat) (p : List UInt8) : List UInt8 :=
  putVarint 10 (num * 8 + 2) ++ (putVarint 10 p.length ++ p)

/-- The bytes of a field. -/
def Field.enc : Field → List UInt8
  | .version s => putLen numVersion s
  | .cookie s => putLen numCookie s
  | .padding p => putLen numPadding p
  | .incompatible => putVarint 10 (numIncompatible * 8) ++ [1]
  | .activationFailMessage s => putLen numActivationFailMessage s
  | .hash h => putLen numHash h

/-- The fields proto.Marshal writes for a proto3 message: those that differ from their zero
value, in field-number order. -/
def present (m : pb.MockOS) : List Field :=
  (if m.Version = [] then [] else [.version m.Version]) ++
  ((if m.Cookie = [] then [] else [.cookie m.Cookie]) ++
  ((if m.Padding = [] then [] else [.padding m.Padding]) ++
  ((if m.Incompatible then [.incompatible] else []) ++
  ((if m.ActivationFailMessage = [] then [] else
      [.activationFailMessage m.ActivationFailMessage]) ++
  (if m.Hash = [] then [] else [.hash m.Hash])))))

/-- The bytes of a list of fields, one after the other. -/
def encodeFields (fs : List Field) : List UInt8 := fs.flatMap Field.enc

/-- The wire form of a message. -/
def encode (m : pb.MockOS) : List UInt8 := encodeFields (present m)

/-- The three strings of a message are valid UTF-8. -/
def validStrings (m : pb.MockOS) : Bool :=
  validUTF8 m.Version && validUTF8 m.Cookie && validUTF8 m.ActivationFailMessage

/-- What proto.Marshal makes of a message: an error when a string is not valid UTF-8,
otherwise its wire form (messages of 2 GiB and more are not covered). -/
def Marshal (m : pb.MockOS) : Decoded (List UInt8) :=
  if !validStrings m then .malformed
  else if 2 ^ 31 ≤ (encode m).length then .unmodelled
  else .value (encode m)

/-- The payload of a field is short enough for its length to be a 64-bit varint. -/
def Field.wf : Field → Prop
  | .version s => s.length < 2 ^ 64
  | .cookie s => s.length < 2 ^ 64
  | .padding p => p.length < 2 ^ 64
  | .incompatible => True
  | .activationFailMessage s => s.length < 2 ^ 64
  | .hash h => h.length < 2 ^ 64

/-- The payload of a string field is valid UTF-8. -/
def Field.valid : Field → Bool
  | .version s => validUTF8 s
  | .cookie s => validUTF8 s
  | .activationFailMessage s => validUTF8 s
  | _ => true

/-- The message after the field has been read into it. -/
def Field.store : Field → pb.MockOS → pb.MockOS
  | .version s, m => { m with Version := s }
  | .cookie s, m => { m with Cookie := s }
  | .padding p, m => { m with Padding := p }
  | .incompatible, m => { m with Incompatible := true }
  | .activationFailMessage s, m => { m with ActivationFailMessage := s }
  | .hash h, m => { m with Hash := h }

/-- Reading a list of fields in order: an error at the first string that is not valid
UTF-8. -/
def storeAll : List Field → pb.MockOS → Decoded pb.MockOS
  | [], m => .value m
  | f :: fs, m => if f.valid then storeAll fs (f.store m) else .malformed

/-- Where a cut after k bytes falls in the bytes of a list of fields: the number of whole
fields before it when it falls between two fields (or before the first, or after the last),
none when it falls inside a field. -/
def wholeFields : List Field → Nat → Option Nat
  | _, 0 => some 0
  | [], _ + 1 => none
  | f :: fs, k + 1 =>
    if f.enc.length ≤ k + 1 then (wholeFields fs (k + 1 - f.enc.length)).map (· + 1)
    else none

/-- The four fields of the serialized package other than the flag and the digest. -/
inductive Region where
  | version
  | cookie
  | padding
  | activationFailMessage
deriving DecidableEq, Repr

/-- The content of a region in a message. -/
def Region.get : Region → pb.MockOS → List UInt8
  | .version, m => m.Version
  | .cookie, m => m.Cookie
  | .padding, m => m.Padding
  | .activationFailMessage, m => m.ActivationFailMessage

/-- The message with the content of a region replaced. -/
def Region.put : Region → pb.MockOS → List UInt8 → pb.MockOS
  | .version, m, s => { m with Version := s }
  | .cookie, m, s => { m with Cookie := s }
  | .padding, m, s => { m with Padding := s }
  | .activationFailMessage, m, s => { m with ActivationFailMessage := s }

/-- The field of a region holding the given payload. -/
def Region.field : Region → List UInt8 → Field
  | .version, s => .version s
  | .cookie, s => .cookie s
  | .padding, s => .padding s
  | .activationFailMessage, s => .activationFailMessage s

/-- The fields written before the field of a region. -/
def Region.before : Region → pb.MockOS → List Field
  | .version, _ => []
  | .cookie, m => if m.Version = [] then [] else [.version m.Version]
  | .padding, m =>
    (if m.Version = [] then [] else [.version m.Version]) ++
    (if m.Cookie = [] then [] else [.cookie m.Cookie])
  | .activationFailMessage, m =>
    (if m.Version = [] then [] else [.version m.Version]) ++
    ((if m.Cookie = [] then [] else [.cookie m.Cookie]) ++
    ((if m.Padding = [] then [] else [.padding m.Padding]) ++
    (if m.Incompatible then [.incompatible] else [])))

/-- The fields written after the field of a region. -/
def Region.after : Region → pb.MockOS → List Field
  | .version, m =>
    (if m.Cookie = [] then [] else [.cookie m.Cookie]) ++
    ((if m.Padding = [] then [] else [.padding m.Padding]) ++
    ((if m.Incompatible then [.incompatible] else []) ++
    ((if m.ActivationFailMessage = [] then [] else
        [.activationFailMessage m.ActivationFailMessage]) ++
    (if m.Hash = [] then [] else [.hash m.Hash]))))
  | .cookie, m =>
    (if m.Padding = [] then [] else [.padding m.Padding]) ++
    ((if m.Incompatible then [.incompatible] else []) ++
    ((if m.ActivationFailMessage = [] then [] else
        [.activationFailMessage m.ActivationFailMessage]) ++
    (if m.Hash = [] then [] else [.hash m.Hash])))
  | .padding, m =>
    (if m.Incompatible then [.incompatible] else []) ++
    ((if m.ActivationFailMessage = [] then [] else
        [.activationFailMessage m.ActivationFailMessage]) ++
    (if m.Hash = [] then [] else [.hash m.Hash]))
  | .activationFailMessage, m => if m.Hash = [] then [] else [.hash m.Hash]

/-- The offset, in the wire form of a message, of the first payload byte of a region: after
the fields before it, the one-byte tag and the length. -/
def Region.start (r : Region) (m : pb.MockOS) : Nat :=
  (encodeFields (r.before m)).length + 1 + (putVarint 10 (r.get m).length).length

/-- The offset, in the wire form of a message, of the first byte of the field of a region:
its tag. -/
def Region.recordStart (r : Region) (m : pb.MockOS) : Nat :=
  (encodeFields (r.before m)).length

/-- The number of bytes the field of a region takes in the wire form, tag, length and
payload together; 0 for a field that is empty and therefore not written. -/
def Region.recordLength (r : Region) (m : pb.MockOS) : Nat :=
  if r.get m = [] then 0 else (r.field (r.get m)).enc.length

/-- A codec behaves as the protocol-buffer library when it returns what the library returns
wherever this description covers the input; the message left behind with an error is not
constrained. -/
def Agrees (proto : Proto) : Prop :=
  (∀ buf m, decode buf = .value m → proto.Unmarshal buf = (m, none)) ∧
  (∀ buf, decode buf = .malformed → (proto.Unmarshal buf).2 ≠ none) ∧
  (∀ m out, Marshal m = .value out → proto.Marshal m = .ok out)

/-- The description completed into one concrete codec: where the library returns an error,
and where the description is silent, the codec returns the given error and leaves the
message reset. The error is an argument: the texts of the errors of the library are no part
of the description. -/
def proto (failure : GoError) : Proto where
  Marshal m :=
    match Marshal m with
    | .value out => .ok out
    | .malformed => .error failure
    | .unmodelled => .error failure
  Unmarshal buf :=
    match decode buf with
    | .value m => (m, none)
    | .malformed => ({}, some failure)
    | .unmodelled => ({}, some failure)

end protobuf

/-- An error value for the concrete codec in the statements at concrete inputs; its text
plays no part in them. -/
def sampleFailure : GoError := errors.New (str "decoding failed")

/-- A package as GenerateOS builds it when the version is the empty string. -/
def emptyVersionOS : OS := GenerateOS.mockOs sampleSource [] 4 [] false

/-! ## Lemmas on the library functions -/

theorem md5.length_leBytes (n x : Nat) : (md5.leBytes n x).length = n := by
  induction n generalizing x with
  | zero => rfl
  | succ n ih => simp [md5.leBytes, ih]

theorem md5.length_Sum (msg : List UInt8) : (md5.Sum msg).length = 16 := by
  simp [md5.Sum, md5.length_leBytes]

set_option maxRecDepth 100000 in
theorem md5.Sum_nil :
    md5.Sum [] = [0xd4, 0x1d, 0x8c, 0xd9, 0x8f, 0x00, 0xb2, 0x04,
      0xe9, 0x80, 0x09, 0x98, 0xec, 0xf8, 0x42, 0x7e] := by
  decide!

set_option maxRecDepth 100000 in
theorem md5.Sum_abc :
    md5.Sum (str "abc") = [0x90, 0x01, 0x50, 0x98, 0x3c, 0xd2, 0x4f, 0xb0,
      0xd6, 0x96, 0x3f, 0x7d, 0x28, 0xe1, 0x7f, 0x72] := by
  decide!

set_option maxRecDepth 100000 in
theorem md5.Sum_two_blocks :
    md5.Sum (str "12345678901234567890123456789012345678901234567890123456789012345678901234567890")
      = [0x57, 0xed, 0xf4, 0xa2, 0x2b, 0xe3, 0xc9, 0x55,
        0xac, 0x49, 0xda, 0x2e, 0x21, 0x07, 0xb6, 0x7a] := by
  decide!

theorem bytes.Compare_self (a : List UInt8) : bytes.Compare a a = 0 := by
  induction a with
  | nil => rfl
  | cons x xs ih => simp [bytes.Compare, UInt8.lt_irrefl, ih]

theorem bytes.Compare_eq_zero_iff (a b : List UInt8) : bytes.Compare a b = 0 ↔ a = b := by
  constructor
  · intro h
    induction a generalizing b with
    | nil =>
      cases b with
      | nil => rfl
      | cons y ys => simp [bytes.Compare] at h
    | cons x xs ih =>
      cases b with
      | nil => simp [bytes.Compare] at h
      | cons y ys =>
        simp only [bytes.Compare] at h
        split at h
        · simp at h
        · split at h
          · simp at h
          · rename_i h1 h2
            have hxy : x = y := UInt8.le_antisymm (UInt8.not_lt.mp h2) (UInt8.not_lt.mp h1)
            rw [hxy, ih ys h]
  · rintro rfl
    exact bytes.Compare_self a

theorem flagByte_eq (b : Bool) : flagByte b = if b then 1 else 0 := by
  cases b <;> rfl

/-! ## The digest and the two methods of the package -/

theorem calcHash_eq_Sum (os : OS) :
    calcHash os = md5.Sum (os.MockOS.Version ++ os.MockOS.Cookie ++ os.MockOS.Padding
      ++ [if os.MockOS.Incompatible then 1 else 0] ++ os.MockOS.ActivationFailMessage) := by
  simp only [calcHash, flagByte_eq]

theorem length_calcHash (os : OS) : (calcHash os).length = 16 := by
  simp only [calcHash, md5.length_Sum]

theorem calcHash_congr (a b : OS) (hv : a.MockOS.Version = b.MockOS.Version)
    (hc : a.MockOS.Cookie = b.MockOS.Cookie) (hp : a.MockOS.Padding = b.MockOS.Padding)
    (hi : a.MockOS.Incompatible = b.MockOS.Incompatible)
    (hm : a.MockOS.ActivationFailMessage = b.MockOS.ActivationFailMessage) :
    calcHash a = calcHash b := by
  simp only [calcHash, hv, hc, hp, hi, hm]

theorem calcHash_Hash (os : OS) : calcHash os.Hash = calcHash os :=
  calcHash_congr _ _ rfl rfl rfl rfl rfl

theorem CheckHash_iff (os : OS) : os.CheckHash = true ↔ os.MockOS.Hash = calcHash os := by
  simp only [OS.CheckHash, beq_iff_eq, bytes.Compare_eq_zero_iff]

theorem CheckHash_Hash (os : OS) : os.Hash.CheckHash = true := by
  rw [CheckHash_iff, calcHash_Hash]
  rfl

theorem CheckHash_false_of_length (os : OS) (h : os.MockOS.Hash.length ≠ 16) :
    os.CheckHash = false := by
  rw [← Bool.not_eq_true, CheckHash_iff]
  intro heq
  exact h (heq ▸ length_calcHash os)

/-- C1: calcHash returns the MD5 checksum of exactly the bytes of Version, then the bytes of
Cookie, then Padding, then one byte that is 1 when Incompatible is true and 0 when it is
false, then the bytes of ActivationFailMessage, with nothing else in the hashed input. -/
theorem calcHash_is_md5_of_fields (os : OS) :
    calcHash os = md5.Sum (os.MockOS.Version ++ os.MockOS.Cookie ++ os.MockOS.Padding
      ++ [if os.MockOS.Incompatible then 1 else 0] ++ os.MockOS.ActivationFailMessage) :=
  calcHash_eq_Sum os

/-- C2: for every package, whatever digest it held before, Hash followed by CheckHash gives
true, and the digest Hash embeds is the MD5 checksum of the other five fields, which Hash
leaves as they were. -/
theorem CheckHash_after_Hash (os : OS) :
    os.Hash.CheckHash = true ∧
    os.Hash.MockOS.Hash = md5.Sum (os.MockOS.Version ++ os.MockOS.Cookie ++ os.MockOS.Padding
      ++ [if os.MockOS.Incompatible then 1 else 0] ++ os.MockOS.ActivationFailMessage) ∧
    os.Hash.MockOS.Hash = calcHash os.Hash :=
  ⟨CheckHash_Hash os, calcHash_eq_Sum os, (calcHash_Hash os).symm⟩

/-- C3: CheckHash is true exactly when the stored Hash equals calcHash of the current fields,
byte for byte; a stored digest that is not sixteen bytes long (empty or absent, fifteen
bytes, seventeen bytes) makes it false. -/
theorem CheckHash_true_iff_exact (os : OS) :
    (os.CheckHash = true ↔ os.MockOS.Hash = calcHash os) ∧
    (os.CheckHash = false ↔ os.MockOS.Hash ≠ calcHash os) ∧
    (os.MockOS.Hash.length ≠ 16 → os.CheckHash = false) := by
  refine ⟨CheckHash_iff os, ?_, CheckHash_false_of_length os⟩
  rw [← Bool.not_eq_true, CheckHash_iff]

/-- C3 at concrete packages: the sample package with its digest removed, cut to fifteen
bytes, and extended to seventeen bytes fails CheckHash each time, while the untouched
sample passes. -/
theorem CheckHash_true_iff_exact_witness :
    (OS.CheckHash { sampleOS with MockOS := { sampleOS.MockOS with Hash := [] } } = false) ∧
    (OS.CheckHash { sampleOS with MockOS :=
      { sampleOS.MockOS with Hash := sampleOS.MockOS.Hash.take 15 } } = false) ∧
    (OS.CheckHash { sampleOS with MockOS :=
      { sampleOS.MockOS with Hash := sampleOS.MockOS.Hash ++ [0] } } = false) ∧
    sampleOS.CheckHash = true :=
  ⟨(CheckHash_true_iff_exact _).2.2 (by decide),
   (CheckHash_true_iff_exact _).2.2
     (by simp [sampleOS, GenerateOS.mockOs, OS.Hash, length_calcHash]),
   (CheckHash_true_iff_exact _).2.2
     (by simp [sampleOS, GenerateOS.mockOs, OS.Hash, length_calcHash]),
   (CheckHash_true_iff_exact sampleOS).1.2 (calcHash_Hash _).symm⟩

/-! ## The four outcomes of ValidateOS -/

theorem ValidateOS_of_error (proto : Proto) (buf : List UInt8) (e : GoError)
    (h : (proto.Unmarshal buf).2 = some e) :
    ValidateOS proto buf = (none, some e, some ⟨{ Type_ := .PARSE_FAIL }⟩) := by
  simp only [ValidateOS, h]

theorem ValidateOS_of_mismatch (proto : Proto) (buf : List UInt8)
    (h : (proto.Unmarshal buf).2 = none)
    (hh : OS.CheckHash ⟨(proto.Unmarshal buf).1⟩ = false) :
    ValidateOS proto buf =
      (none, some (errors.New (str "Hash check failed!")), some ⟨{ Type_ := .INTEGRITY_FAIL }⟩) := by
  simp [ValidateOS, h, hh]

theorem ValidateOS_of_incompatible (proto : Proto) (buf : List UInt8)
    (h : (proto.Unmarshal buf).2 = none)
    (hh : OS.CheckHash ⟨(proto.Unmarshal buf).1⟩ = true)
    (hi : (proto.Unmarshal buf).1.Incompatible = true) :
    ValidateOS proto buf =
      (none, some (errors.New (str "OS Unsupported!")),
        some ⟨{ Type_ := .INCOMPATIBLE, Detail := str "Unsupported OS Version" }⟩) := by
  simp [ValidateOS, h, hh, hi]

theorem ValidateOS_of_valid (proto : Proto) (buf : List UInt8)
    (h : (proto.Unmarshal buf).2 = none)
    (hh : OS.CheckHash ⟨(proto.Unmarshal buf).1⟩ = true)
    (hi : (proto.Unmarshal buf).1.Incompatible = false) :
    ValidateOS proto buf = (some ⟨(proto.Unmarshal buf).1⟩, none, none) := by
  simp [ValidateOS, h, hh, hi]

theorem ValidateOS_cases (proto : Proto) (buf : List UInt8) :
    (∃ e, (proto.Unmarshal buf).2 = some e ∧
      ValidateOS proto buf = (none, some e, some ⟨{ Type_ := .PARSE_FAIL }⟩)) ∨
    ((proto.Unmarshal buf).2 = none ∧ OS.CheckHash ⟨(proto.Unmarshal buf).1⟩ = false ∧
      ValidateOS proto buf =
        (none, some (errors.New (str "Hash check failed!")),
          some ⟨{ Type_ := .INTEGRITY_FAIL }⟩)) ∨
    ((proto.Unmarshal buf).2 = none ∧ OS.CheckHash ⟨(proto.Unmarshal buf).1⟩ = true ∧
      (proto.Unmarshal buf).1.Incompatible = true ∧
      ValidateOS proto buf =
        (none, some (errors.New (str "OS Unsupported!")),
          some ⟨{ Type_ := .INCOMPATIBLE, Detail := str "Unsupported OS Version" }⟩)) ∨
    ((proto.Unmarshal buf).2 = none ∧ OS.CheckHash ⟨(proto.Unmarshal buf).1⟩ = true ∧
      (proto.Unmarshal buf).1.Incompatible = false ∧
      ValidateOS proto buf = (some ⟨(proto.Unmarshal buf).1⟩, none, none)) := by
  cases h : (proto.Unmarshal buf).2 with
  | some e => exact Or.inl ⟨e, rfl, ValidateOS_of_error proto buf e h⟩
  | none =>
    cases hh : OS.CheckHash ⟨(proto.Unmarshal buf).1⟩ with
    | false => exact Or.inr (Or.inl ⟨rfl, rfl, ValidateOS_of_mismatch proto buf h hh⟩)
    | true =>
      cases hi : (proto.Unmarshal buf).1.Incompatible with
      | true => exact Or.inr (Or.inr (Or.inl ⟨rfl, rfl, rfl, ValidateOS_of_incompatible proto buf h hh hi⟩))
      | false => exact Or.inr (Or.inr (Or.inr ⟨rfl, rfl, rfl, ValidateOS_of_valid proto buf h hh hi⟩))

/-! ## The concrete codec inverts its encoding -/

theorem framed.getBytes_putBytes (xs rest : List UInt8) :
    framed.getBytes (framed.putBytes xs ++ rest) = some (xs, rest) := by
  induction xs with
  | nil => cases rest <;> simp [framed.putBytes, framed.getBytes]
  | cons x xs ih =>
    have h : framed.putBytes (x :: xs) ++ rest = 1 :: x :: (framed.putBytes xs ++ rest) := by
      simp [framed.putBytes]
    rw [h, framed.getBytes]
    simp [ih]

theorem framed.decode_encode (m : pb.MockOS) : framed.decode (framed.encode m) = some m := by
  obtain ⟨v, c, p, i, a, h⟩ := m
  have hnil : framed.getBytes (framed.putBytes h) = some (h, []) := by
    simpa using framed.getBytes_putBytes h []
  cases i <;>
    simp [framed.decode, framed.encode, framed.getBytes_putBytes, hnil, flagByte_eq]

theorem framed.Unmarshal_Marshal (m : pb.MockOS) (out : List UInt8)
    (h : framed.proto.Marshal m = .ok out) : framed.proto.Unmarshal out = (m, none) := by
  simp only [framed.proto, Except.ok.injEq] at h
  subst h
  simp only [framed.proto, framed.decode_encode]

theorem framed.Unmarshal_encode (m : pb.MockOS) :
    framed.proto.Unmarshal (framed.encode m) = (m, none) := by
  simp only [framed.proto, framed.decode_encode]

theorem CheckHash_mockOs (source : Nat → UInt8) (version : GoString) (n : Nat)
    (msg : GoString) (incompatible : Bool) :
    (GenerateOS.mockOs source version n msg incompatible).CheckHash = true :=
  CheckHash_Hash _

/-! ## Claims on ValidateOS -/

/-- C4: ValidateOS returns success (a package, nil error, nil install error) exactly when
the bytes decode, the stored digest of the decoded package equals the recomputed digest and
its Incompatible flag is false; the package it then returns is the decoded package with all
six fields as decoded. -/
theorem ValidateOS_success_iff (proto : Proto) (buf : List UInt8) :
    (((ValidateOS proto buf).1 ≠ none ∧ (ValidateOS proto buf).2.1 = none ∧
        (ValidateOS proto buf).2.2 = none) ↔
      ((proto.Unmarshal buf).2 = none ∧
        (proto.Unmarshal buf).1.Hash = calcHash ⟨(proto.Unmarshal buf).1⟩ ∧
        (proto.Unmarshal buf).1.Incompatible = false)) ∧
    (∀ os, (ValidateOS proto buf).1 = some os →
      ValidateOS proto buf = (some os, none, none) ∧ os.MockOS = (proto.Unmarshal buf).1) := by
  rcases ValidateOS_cases proto buf with ⟨e, he, hv⟩ | ⟨hd, hh, hv⟩ | ⟨hd, hh, hi, hv⟩ |
      ⟨hd, hh, hi, hv⟩
  · simp [hv, he]
  · have hne : (proto.Unmarshal buf).1.Hash ≠ calcHash ⟨(proto.Unmarshal buf).1⟩ := by
      intro h
      rw [(CheckHash_iff ⟨(proto.Unmarshal buf).1⟩).2 h] at hh
      cases hh
    simp [hv, hne]
  · simp [hv, hi]
  · have heq := (CheckHash_iff ⟨(proto.Unmarshal buf).1⟩).1 hh
    refine ⟨?_, ?_⟩
    · simp [hv, hd, hi]
      exact heq
    · intro os hos
      rw [hv] at hos ⊢
      simp only [Option.some.injEq] at hos
      subst hos
      exact ⟨rfl, rfl⟩

/-- C4 at a concrete input: the encoding of the sample package is validated, and the package
returned is the sample package. -/
theorem ValidateOS_success_iff_witness :
    ((ValidateOS framed.proto (framed.encode sampleOS.MockOS)).1 ≠ none ∧
      (ValidateOS framed.proto (framed.encode sampleOS.MockOS)).2.1 = none ∧
      (ValidateOS framed.proto (framed.encode sampleOS.MockOS)).2.2 = none) ∧
    ValidateOS framed.proto (framed.encode sampleOS.MockOS) = (some sampleOS, none, none) :=
  have h := (ValidateOS_success_iff framed.proto (framed.encode sampleOS.MockOS)).1.2
    (by
      rw [framed.Unmarshal_encode]
      exact ⟨rfl, (CheckHash_iff sampleOS).1 (CheckHash_mockOs _ _ _ _ _), rfl⟩)
  ⟨h, by
    cases hr : (ValidateOS framed.proto (framed.encode sampleOS.MockOS)).1 with
    | none => exact absurd hr h.1
    | some os =>
      have h2 := (ValidateOS_success_iff framed.proto (framed.encode sampleOS.MockOS)).2 os hr
      rw [framed.Unmarshal_encode] at h2
      have : os = sampleOS := by
        obtain ⟨m⟩ := os
        have hm : m = sampleOS.MockOS := h2.2
        rw [hm]
      rw [h2.1, this]⟩

/-- C5: when the bytes decode into a package whose stored digest verifies and whose
Incompatible flag is true, ValidateOS returns no package, the error OS Unsupported! and an
install error of type INCOMPATIBLE with the detail Unsupported OS Version; in particular it
does not return success. -/
theorem ValidateOS_incompatible (proto : Proto) (buf : List UInt8)
    (hdec : (proto.Unmarshal buf).2 = none)
    (hhash : (proto.Unmarshal buf).1.Hash = calcHash ⟨(proto.Unmarshal buf).1⟩)
    (hinc : (proto.Unmarshal buf).1.Incompatible = true) :
    ValidateOS proto buf =
      (none, some (errors.New (str "OS Unsupported!")),
        some ⟨{ Type_ := .INCOMPATIBLE, Detail := str "Unsupported OS Version" }⟩) ∧
    (ValidateOS proto buf).1 = none ∧ (ValidateOS proto buf).2.1 ≠ none :=
  have h := ValidateOS_of_incompatible proto buf hdec ((CheckHash_iff _).2 hhash) hinc
  ⟨h, by rw [h], by rw [h]; simp⟩

/-- C5 at a concrete input: the encoding of a package built with the flag set. -/
theorem ValidateOS_incompatible_witness :
    ValidateOS framed.proto (framed.encode incompatibleOS.MockOS) =
      (none, some (errors.New (str "OS Unsupported!")),
        some ⟨{ Type_ := .INCOMPATIBLE, Detail := str "Unsupported OS Version" }⟩) :=
  (ValidateOS_incompatible framed.proto (framed.encode incompatibleOS.MockOS)
    (by rw [framed.Unmarshal_encode])
    (by rw [framed.Unmarshal_encode]; exact (CheckHash_iff incompatibleOS).1 (CheckHash_mockOs _ _ _ _ _))
    (by rw [framed.Unmarshal_encode]; rfl)).1

/-- C6: when the bytes decode into a package whose stored digest differs from the recomputed
digest, ValidateOS returns no package, the error Hash check failed! and an install error of
type INTEGRITY_FAIL with no detail, whatever the Incompatible flag: a package that is both
corrupted and incompatible is an integrity failure. -/
theorem ValidateOS_integrity_fail (proto : Proto) (buf : List UInt8)
    (hdec : (proto.Unmarshal buf).2 = none)
    (hhash : (proto.Unmarshal buf).1.Hash ≠ calcHash ⟨(proto.Unmarshal buf).1⟩) :
    ValidateOS proto buf =
      (none, some (errors.New (str "Hash check failed!")),
        some ⟨{ Type_ := .INTEGRITY_FAIL, Detail := [] }⟩) :=
  ValidateOS_of_mismatch proto buf hdec
    (by rw [← Bool.not_eq_true, CheckHash_iff]; exact hhash)

set_option maxRecDepth 100000 in
/-- C6 at a concrete input: the sample package with its flag set to true after the digest
was embedded is both corrupted and incompatible, and is reported as INTEGRITY_FAIL. -/
theorem ValidateOS_integrity_fail_witness :
    corruptedOS.MockOS.Incompatible = true ∧
    ValidateOS framed.proto (framed.encode corruptedOS.MockOS) =
      (none, some (errors.New (str "Hash check failed!")),
        some ⟨{ Type_ := .INTEGRITY_FAIL, Detail := [] }⟩) :=
  ⟨rfl, ValidateOS_integrity_fail framed.proto (framed.encode corruptedOS.MockOS)
    (by rw [framed.Unmarshal_encode])
    (by rw [framed.Unmarshal_encode]; decide!)⟩

/-- C7: when the codec fails to decode the bytes, ValidateOS returns no package, the error
of the codec and an install error of type PARSE_FAIL, whatever message the codec had reached
when it stopped: its digest and its flag play no part. -/
theorem ValidateOS_parse_fail (proto : Proto) (buf : List UInt8) (e : GoError)
    (hdec : (proto.Unmarshal buf).2 = some e) :
    ValidateOS proto buf = (none, some e, some ⟨{ Type_ := .PARSE_FAIL, Detail := [] }⟩) :=
  ValidateOS_of_error proto buf e hdec

/-- C7 at concrete inputs: the empty input, which the concrete codec rejects, and a codec
that stops with an error after reaching a message that would pass both later checks. -/
theorem ValidateOS_parse_fail_witness :
    ValidateOS framed.proto [] =
      (none, some (errors.New (str "framed: cannot parse")),
        some ⟨{ Type_ := .PARSE_FAIL, Detail := [] }⟩) ∧
    ValidateOS (stoppingProto sampleOS.MockOS (errors.New (str "unexpected EOF"))) [1, 2, 3] =
      (none, some (errors.New (str "unexpected EOF")),
        some ⟨{ Type_ := .PARSE_FAIL, Detail := [] }⟩) :=
  ⟨ValidateOS_parse_fail framed.proto [] _ rfl,
   ValidateOS_parse_fail (stoppingProto sampleOS.MockOS (errors.New (str "unexpected EOF")))
    [1, 2, 3] _ rfl⟩

/-- C8, as the code has it: for a decoded package whose cookie differs from the constant
cookiestring, ValidateOS reports an integrity failure (no package, INTEGRITY_FAIL) exactly
when the stored digest differs from the MD5 checksum recomputed over the decoded fields, the
decoded cookie among them; the cookie is not compared with the constant. -/
theorem ValidateOS_foreign_cookie (proto : Proto) (buf : List UInt8)
    (hdec : (proto.Unmarshal buf).2 = none)
    (hcookie : (proto.Unmarshal buf).1.Cookie ≠ cookie) :
    (proto.Unmarshal buf).1.Cookie ≠ cookie ∧
    (((ValidateOS proto buf).1 = none ∧
        (ValidateOS proto buf).2.2 = some ⟨{ Type_ := .INTEGRITY_FAIL, Detail := [] }⟩) ↔
      (proto.Unmarshal buf).1.Hash ≠
        md5.Sum ((proto.Unmarshal buf).1.Version ++ (proto.Unmarshal buf).1.Cookie ++
          (proto.Unmarshal buf).1.Padding ++
          [if (proto.Unmarshal buf).1.Incompatible then 1 else 0] ++
          (proto.Unmarshal buf).1.ActivationFailMessage)) := by
  refine ⟨hcookie, ?_⟩
  rw [← calcHash_eq_Sum ⟨(proto.Unmarshal buf).1⟩]
  rcases ValidateOS_cases proto buf with ⟨e, he, _⟩ | ⟨_, hh, hv⟩ | ⟨_, hh, _, hv⟩ |
      ⟨_, hh, _, hv⟩
  · rw [hdec] at he
    cases he
  · have hne : (proto.Unmarshal buf).1.Hash ≠ calcHash ⟨(proto.Unmarshal buf).1⟩ := by
      intro h
      rw [(CheckHash_iff ⟨(proto.Unmarshal buf).1⟩).2 h] at hh
      cases hh
    simp [hv, hne]
  · have heq := (CheckHash_iff ⟨(proto.Unmarshal buf).1⟩).1 hh
    simp [hv]
    exact heq
  · have heq := (CheckHash_iff ⟨(proto.Unmarshal buf).1⟩).1 hh
    simp [hv]
    exact heq

set_option maxRecDepth 100000 in
/-- C8 at a concrete input: the sample package whose cookie was replaced after the digest
was embedded is an integrity failure. -/
theorem ValidateOS_foreign_cookie_witness :
    (ValidateOS framed.proto (framed.encode staleCookieOS.MockOS)).1 = none ∧
    (ValidateOS framed.proto (framed.encode staleCookieOS.MockOS)).2.2 =
      some ⟨{ Type_ := .INTEGRITY_FAIL, Detail := [] }⟩ :=
  (ValidateOS_foreign_cookie framed.proto (framed.encode staleCookieOS.MockOS)
    (by rw [framed.Unmarshal_encode])
    (by rw [framed.Unmarshal_encode]; decide)).2.2
    (by rw [framed.Unmarshal_encode]; decide!)

set_option maxRecDepth 100000 in
/-- C8 fails as stated: a package whose cookie is anothercookie and whose digest was computed
over its own fields decodes, has a cookie different from the constant, and is validated
with success, not reported as an integrity failure. -/
theorem foreign_cookie_is_accepted :
    (framed.proto.Unmarshal (framed.encode foreignCookieOS.MockOS)).2 = none ∧
    (framed.proto.Unmarshal (framed.encode foreignCookieOS.MockOS)).1.Cookie ≠ cookie ∧
    ValidateOS framed.proto (framed.encode foreignCookieOS.MockOS) =
      (some foreignCookieOS, none, none) ∧
    (ValidateOS framed.proto (framed.encode foreignCookieOS.MockOS)).2.2 ≠
      some ⟨{ Type_ := .INTEGRITY_FAIL, Detail := [] }⟩ := by
  have hv : ValidateOS framed.proto (framed.encode foreignCookieOS.MockOS) =
      (some foreignCookieOS, none, none) := by
    have h := ValidateOS_of_valid framed.proto (framed.encode foreignCookieOS.MockOS)
      (by rw [framed.Unmarshal_encode])
      (by rw [framed.Unmarshal_encode]; exact CheckHash_Hash _)
      (by rw [framed.Unmarshal_encode]; rfl)
    rw [framed.Unmarshal_encode] at h
    exact h
  refine ⟨by rw [framed.Unmarshal_encode], ?_, hv, by rw [hv]; simp⟩
  rw [framed.Unmarshal_encode]
  decide

/-! ## GenerateOS -/

theorem length_rand_Read (source : Nat → UInt8) (n : Nat) :
    (rand.Read source (make n)).length = n := by
  simp [rand.Read, make]

theorem mockOs_fields (source : Nat → UInt8) (version : GoString) (n : Nat)
    (msg : GoString) (incompatible : Bool) :
    (GenerateOS.mockOs source version n msg incompatible).MockOS.Version = version ∧
    (GenerateOS.mockOs source version n msg incompatible).MockOS.Cookie = cookie ∧
    (GenerateOS.mockOs source version n msg incompatible).MockOS.Padding
      = rand.Read source (make n) ∧
    (GenerateOS.mockOs source version n msg incompatible).MockOS.Padding.length = n ∧
    (GenerateOS.mockOs source version n msg incompatible).MockOS.Incompatible = incompatible ∧
    (GenerateOS.mockOs source version n msg incompatible).MockOS.ActivationFailMessage = msg ∧
    (GenerateOS.mockOs source version n msg incompatible).MockOS.Hash
      = calcHash (GenerateOS.mockOs source version n msg incompatible) :=
  ⟨rfl, rfl, rfl, length_rand_Read source n, rfl, rfl,
    ((CheckHash_iff _).1 (CheckHash_mockOs source version n msg incompatible))⟩

theorem GenerateOS_writes (proto : Proto) (ParseBytes : GoString → Except GoError Nat)
    (source : Nat → UInt8) (fs : FileSystem)
    (filename version size msg : GoString) (incompatible : Bool) (n : Nat) (out : List UInt8)
    (hstat : fs.Stat filename = .notExist) (hcreate : fs.createFault filename = none)
    (hsize : ParseBytes size = .ok n)
    (hmarshal :
      proto.Marshal (GenerateOS.mockOs source version n msg incompatible).MockOS = .ok out)
    (hwrite : fs.writeFault filename out = none) :
    (GenerateOS proto ParseBytes source fs filename version size msg incompatible).1 = none ∧
    (GenerateOS proto ParseBytes source fs filename version size msg incompatible).2.files
      filename = some out := by
  by_cases hout : out = []
  · simp [GenerateOS, hstat, os.IsNotExist, FileSystem.Create, hcreate, hsize, hmarshal,
      FileSystem.Write, hout]
  · simp [GenerateOS, hstat, os.IsNotExist, FileSystem.Create, hcreate, hsize, hmarshal,
      FileSystem.Write, hout, hwrite]

theorem ValidateOS_built (proto : Proto) (source : Nat → UInt8) (version : GoString) (n : Nat)
    (msg : GoString) (out : List UInt8)
    (hdecode :
      proto.Unmarshal out = ((GenerateOS.mockOs source version n msg false).MockOS, none)) :
    ValidateOS proto out = (some (GenerateOS.mockOs source version n msg false), none, none) := by
  have h := ValidateOS_of_valid proto out (by rw [hdecode])
    (by rw [hdecode]; exact CheckHash_mockOs _ _ _ _ _) (by rw [hdecode]; rfl)
  rw [hdecode] at h
  exact h

theorem humanize.ParseBytes_1KB : humanize.ParseBytes (str "1KB") = some (.ok 1000) := by
  rfl

theorem humanize.ParseBytes_1KiB : humanize.ParseBytes (str "1KiB") = some (.ok 1024) := by
  rfl

theorem humanize.Agrees_parseOrReject : humanize.Agrees humanize.parseOrReject := by
  intro s r h
  simp [humanize.parseOrReject, h]

/-- C9: round trip. For every version, size string parsed into n, message and flag, when the
destination does not exist, no file operation fails and the codec encodes the package and
decodes what it encodes, GenerateOS returns nil and leaves in the file the encoding of the
package it built: cookie cookiestring, n bytes of padding taken from the random source, the
supplied version, message and flag, and the digest embedded by Hash. Decoding the file gives
back that package, all six fields equal, its CheckHash is true, and when the flag is false
ValidateOS on the file returns that package. -/
theorem GenerateOS_round_trip (proto : Proto) (ParseBytes : GoString → Except GoError Nat)
    (source : Nat → UInt8) (fs : FileSystem)
    (filename version size msg : GoString) (incompatible : Bool) (n : Nat) (out : List UInt8)
    (hround : ∀ m bytes, proto.Marshal m = .ok bytes → proto.Unmarshal bytes = (m, none))
    (hstat : fs.Stat filename = .notExist) (hcreate : fs.createFault filename = none)
    (hsize : ParseBytes size = .ok n)
    (hmarshal :
      proto.Marshal (GenerateOS.mockOs source version n msg incompatible).MockOS = .ok out)
    (hwrite : fs.writeFault filename out = none) :
    (GenerateOS proto ParseBytes source fs filename version size msg incompatible).1 = none ∧
    (GenerateOS proto ParseBytes source fs filename version size msg incompatible).2.files
      filename = some out ∧
    (proto.Unmarshal out).2 = none ∧
    (proto.Unmarshal out).1 = (GenerateOS.mockOs source version n msg incompatible).MockOS ∧
    (proto.Unmarshal out).1.Version = version ∧
    (proto.Unmarshal out).1.Cookie = cookie ∧
    (proto.Unmarshal out).1.Padding = rand.Read source (make n) ∧
    (proto.Unmarshal out).1.Padding.length = n ∧
    (proto.Unmarshal out).1.Incompatible = incompatible ∧
    (proto.Unmarshal out).1.ActivationFailMessage = msg ∧
    (proto.Unmarshal out).1.Hash
      = (GenerateOS.mockOs source version n msg incompatible).MockOS.Hash ∧
    OS.CheckHash ⟨(proto.Unmarshal out).1⟩ = true ∧
    (incompatible = false →
      ValidateOS proto out
        = (some (GenerateOS.mockOs source version n msg incompatible), none, none)) := by
  have hw := GenerateOS_writes proto ParseBytes source fs filename version size msg
    incompatible n out hstat hcreate hsize hmarshal hwrite
  have hd := hround _ _ hmarshal
  have hf := mockOs_fields source version n msg incompatible
  refine ⟨hw.1, hw.2, ?_, ?_, ?_, ?_, ?_, ?_, ?_, ?_, ?_, ?_, ?_⟩
  · rw [hd]
  · rw [hd]
  · rw [hd]; exact hf.1
  · rw [hd]; exact hf.2.1
  · rw [hd]; exact hf.2.2.1
  · rw [hd]; exact hf.2.2.2.1
  · rw [hd]; exact hf.2.2.2.2.1
  · rw [hd]; exact hf.2.2.2.2.2.1
  · rw [hd]
  · rw [hd]; exact CheckHash_mockOs _ _ _ _ _
  · intro hi
    subst hi
    exact ValidateOS_built proto source version n msg out hd

/-- C9 at a concrete input: the concrete codec, the empty file system, the file os.img,
version 1.2.3, size 4, no message, flag off. -/
theorem GenerateOS_round_trip_witness :
    (GenerateOS framed.proto humanize.parseOrReject sampleSource emptyFS
      (str "os.img") (str "1.2.3") (str "4") [] false).1 = none ∧
    (GenerateOS framed.proto humanize.parseOrReject sampleSource emptyFS
      (str "os.img") (str "1.2.3") (str "4") [] false).2.files (str "os.img")
      = some (framed.encode sampleOS.MockOS) ∧
    ValidateOS framed.proto (framed.encode sampleOS.MockOS) = (some sampleOS, none, none) :=
  have h := GenerateOS_round_trip framed.proto humanize.parseOrReject sampleSource emptyFS
    (str "os.img") (str "1.2.3") (str "4") [] false 4 (framed.encode sampleOS.MockOS)
    framed.Unmarshal_Marshal rfl rfl rfl rfl rfl
  ⟨h.1, h.2.1, h.2.2.2.2.2.2.2.2.2.2.2.2 rfl⟩

theorem kilobyteImage_eq :
    kilobyteImage
      = framed.encode (GenerateOS.mockOs sampleSource (str "1.2.3") 1000 [] false).MockOS := by
  have h := GenerateOS_writes framed.proto humanize.parseOrReject sampleSource emptyFS
    (str "os.img") (str "1.2.3") (str "1KB") [] false 1000
    (framed.encode (GenerateOS.mockOs sampleSource (str "1.2.3") 1000 [] false).MockOS)
    rfl rfl rfl rfl rfl
  rw [kilobyteImage, h.2]
  rfl

theorem ValidateOS_kilobyteImage :
    ValidateOS framed.proto kilobyteImage
      = (some (GenerateOS.mockOs sampleSource (str "1.2.3") 1000 [] false), none, none) := by
  rw [kilobyteImage_eq]
  exact ValidateOS_built framed.proto sampleSource (str "1.2.3") 1000 []
    _ (framed.Unmarshal_encode _)

/-- C10, as the code has it: with the size parser of go-humanize, for which KB is the SI
kilobyte, building with version 1.2.3, size 1KB, no activation-fail message and the flag
off, then validating the file, succeeds and returns a package whose version is 1.2.3 and
whose padding is 1000 bytes long, the byte count the size parser returns for 1KB. -/
theorem GenerateOS_1KB (proto : Proto) (ParseBytes : GoString → Except GoError Nat)
    (source : Nat → UInt8) (fs : FileSystem) (filename : GoString) (out : List UInt8)
    (hparse : humanize.Agrees ParseBytes)
    (hround : ∀ m bytes, proto.Marshal m = .ok bytes → proto.Unmarshal bytes = (m, none))
    (hstat : fs.Stat filename = .notExist) (hcreate : fs.createFault filename = none)
    (hmarshal :
      proto.Marshal (GenerateOS.mockOs source (str "1.2.3") 1000 [] false).MockOS = .ok out)
    (hwrite : fs.writeFault filename out = none) :
    ParseBytes (str "1KB") = .ok 1000 ∧
    (GenerateOS proto ParseBytes source fs filename (str "1.2.3") (str "1KB") [] false).1
      = none ∧
    (GenerateOS proto ParseBytes source fs filename (str "1.2.3") (str "1KB") [] false).2.files
      filename = some out ∧
    ∃ os, ValidateOS proto out = (some os, none, none) ∧
      os.MockOS.Version = str "1.2.3" ∧ os.MockOS.Padding.length = 1000 := by
  have hsize : ParseBytes (str "1KB") = .ok 1000 := hparse _ _ humanize.ParseBytes_1KB
  have hw := GenerateOS_writes proto ParseBytes source fs filename (str "1.2.3") (str "1KB")
    [] false 1000 out hstat hcreate hsize hmarshal hwrite
  refine ⟨hsize, hw.1, hw.2, GenerateOS.mockOs source (str "1.2.3") 1000 [] false,
    ValidateOS_built proto source (str "1.2.3") 1000 [] out (hround _ _ hmarshal), rfl, ?_⟩
  exact (mockOs_fields source (str "1.2.3") 1000 [] false).2.2.2.1

/-- C10 at a concrete input: the concrete codec, the empty file system and the file os.img. -/
theorem GenerateOS_1KB_witness :
    (GenerateOS framed.proto humanize.parseOrReject sampleSource emptyFS
      (str "os.img") (str "1.2.3") (str "1KB") [] false).1 = none ∧
    ∃ os, ValidateOS framed.proto
        (framed.encode (GenerateOS.mockOs sampleSource (str "1.2.3") 1000 [] false).MockOS)
          = (some os, none, none) ∧
      os.MockOS.Version = str "1.2.3" ∧ os.MockOS.Padding.length = 1000 :=
  have h := GenerateOS_1KB framed.proto humanize.parseOrReject sampleSource emptyFS
    (str "os.img")
    (framed.encode (GenerateOS.mockOs sampleSource (str "1.2.3") 1000 [] false).MockOS)
    humanize.Agrees_parseOrReject framed.Unmarshal_Marshal rfl rfl rfl rfl
  ⟨h.2.1, h.2.2.2⟩

/-- C10 fails as stated: on the empty file system, with the size parser of go-humanize, the
build with version 1.2.3 and size 1KB succeeds and the file validates, but the package
returned has 1000 bytes of padding; no package with 1024 bytes of padding is returned. -/
theorem padding_of_1KB_is_not_1024 :
    (GenerateOS framed.proto humanize.parseOrReject sampleSource emptyFS
      (str "os.img") (str "1.2.3") (str "1KB") [] false).1 = none ∧
    (GenerateOS framed.proto humanize.parseOrReject sampleSource emptyFS
      (str "os.img") (str "1.2.3") (str "1KB") [] false).2.files (str "os.img")
      = some kilobyteImage ∧
    (∃ os, ValidateOS framed.proto kilobyteImage = (some os, none, none) ∧
      os.MockOS.Version = str "1.2.3" ∧ os.MockOS.Padding.length = 1000) ∧
    ¬ ∃ os, ValidateOS framed.proto kilobyteImage = (some os, none, none) ∧
      os.MockOS.Version = str "1.2.3" ∧ os.MockOS.Padding.length = 1024 := by
  have hw := GenerateOS_writes framed.proto humanize.parseOrReject sampleSource emptyFS
    (str "os.img") (str "1.2.3") (str "1KB") [] false 1000
    (framed.encode (GenerateOS.mockOs sampleSource (str "1.2.3") 1000 [] false).MockOS)
    rfl rfl rfl rfl rfl
  have hlen := (mockOs_fields sampleSource (str "1.2.3") 1000 [] false).2.2.2.1
  refine ⟨hw.1, ?_, ⟨_, ValidateOS_kilobyteImage, rfl, hlen⟩, ?_⟩
  · rw [kilobyteImage_eq]
    exact hw.2
  · rintro ⟨os, hv, -, hl⟩
    rw [ValidateOS_kilobyteImage] at hv
    simp only [Prod.mk.injEq, Option.some.injEq, and_true] at hv
    subst hv
    rw [hlen] at hl
    cases hl

/-! ## GenerateOS and the destination file -/

theorem GenerateOS_of_existing (proto : Proto) (ParseBytes : GoString → Except GoError Nat)
    (source : Nat → UInt8) (fs : FileSystem)
    (filename version size msg : GoString) (incompatible : Bool)
    (h : os.IsNotExist (fs.Stat filename) = false) :
    GenerateOS proto ParseBytes source fs filename version size msg incompatible
      = (some (errors.New (str "File already exists")), fs) := by
  simp [GenerateOS, h]

theorem IsNotExist_of_file (fs : FileSystem) (filename : GoString) (content : List UInt8)
    (h : fs.files filename = some content) : os.IsNotExist (fs.Stat filename) = false := by
  unfold FileSystem.Stat
  cases hs : fs.statFault filename with
  | some e => rfl
  | none => simp [h, os.IsNotExist]

theorem GenerateOS_of_size_error (proto : Proto) (ParseBytes : GoString → Except GoError Nat)
    (source : Nat → UInt8) (fs : FileSystem)
    (filename version size msg : GoString) (incompatible : Bool) (e : GoError)
    (hstat : fs.Stat filename = .notExist) (hcreate : fs.createFault filename = none)
    (hsize : ParseBytes size = .error e) :
    GenerateOS proto ParseBytes source fs filename version size msg incompatible
      = (some e, { fs with files := fun p => if p = filename then some [] else fs.files p }) := by
  simp [GenerateOS, hstat, os.IsNotExist, FileSystem.Create, hcreate, hsize]

/-- C13: when the destination file exists, GenerateOS returns the error File already exists
and leaves the file system exactly as it was, so that no file is created or truncated, no
byte is written and the existing content is unchanged, for every version, size (malformed
ones included), message and flag, and every codec, size parser and random source. -/
theorem GenerateOS_existing_file (proto : Proto) (ParseBytes : GoString → Except GoError Nat)
    (source : Nat → UInt8) (fs : FileSystem)
    (filename version size msg : GoString) (incompatible : Bool) (content : List UInt8)
    (hexists : fs.files filename = some content) :
    GenerateOS proto ParseBytes source fs filename version size msg incompatible
      = (some (errors.New (str "File already exists")), fs) ∧
    (GenerateOS proto ParseBytes source fs filename version size msg incompatible).2.files
      filename = some content ∧
    ∀ p, (GenerateOS proto ParseBytes source fs filename version size msg incompatible).2.files p
      = fs.files p := by
  have h := GenerateOS_of_existing proto ParseBytes source fs filename version size msg
    incompatible (IsNotExist_of_file fs filename content hexists)
  rw [h]
  exact ⟨rfl, hexists, fun _ => rfl⟩

/-- C13 at a concrete input: the file os.img exists with three bytes and the size is
malformed; the error is File already exists and the three bytes are still there. -/
theorem GenerateOS_existing_file_witness :
    (GenerateOS framed.proto humanize.parseOrReject sampleSource oneFileFS
      (str "os.img") (str "1.2.3") (str "lots") [] false).1
      = some (errors.New (str "File already exists")) ∧
    (GenerateOS framed.proto humanize.parseOrReject sampleSource oneFileFS
      (str "os.img") (str "1.2.3") (str "lots") [] false).2.files (str "os.img")
      = some [7, 8, 9] :=
  have h := GenerateOS_existing_file framed.proto humanize.parseOrReject sampleSource oneFileFS
    (str "os.img") (str "1.2.3") (str "lots") [] false [7, 8, 9] rfl
  ⟨by rw [h.1], h.2.1⟩

/-- C19: GenerateOS creates the destination before it parses the size. When the destination
does not exist, its creation succeeds and the size string is rejected by the size parser,
GenerateOS returns the error of the size parser, the destination exists afterwards as an
empty file, every other file is as before, and any following call of GenerateOS on the same
filename, whatever its size and other arguments, fails with File already exists. -/
theorem GenerateOS_leaves_empty_file (proto : Proto)
    (ParseBytes : GoString → Except GoError Nat)
    (source : Nat → UInt8) (fs : FileSystem)
    (filename version size msg : GoString) (incompatible : Bool) (e : GoError)
    (hstat : fs.Stat filename = .notExist) (hcreate : fs.createFault filename = none)
    (hsize : ParseBytes size = .error e) :
    (GenerateOS proto ParseBytes source fs filename version size msg incompatible).1 = some e ∧
    fs.files filename = none ∧
    (GenerateOS proto ParseBytes source fs filename version size msg incompatible).2.files
      filename = some [] ∧
    (∀ p, p ≠ filename →
      (GenerateOS proto ParseBytes source fs filename version size msg incompatible).2.files p
        = fs.files p) ∧
    ∀ (proto2 : Proto) (ParseBytes2 : GoString → Except GoError Nat) (source2 : Nat → UInt8)
      (version2 size2 msg2 : GoString) (incompatible2 : Bool),
      (GenerateOS proto2 ParseBytes2 source2
        (GenerateOS proto ParseBytes source fs filename version size msg incompatible).2
        filename version2 size2 msg2 incompatible2).1
        = some (errors.New (str "File already exists")) := by
  have h := GenerateOS_of_size_error proto ParseBytes source fs filename version size msg
    incompatible e hstat hcreate hsize
  have habsent : fs.files filename = none := by
    unfold FileSystem.Stat at hstat
    cases hs : fs.statFault filename with
    | some e => simp [hs] at hstat
    | none =>
      cases hf : fs.files filename with
      | some c => simp [hs, hf] at hstat
      | none => rfl
  rw [h]
  refine ⟨rfl, habsent, by simp, fun p hp => by simp [hp], ?_⟩
  intro proto2 ParseBytes2 source2 version2 size2 msg2 incompatible2
  rw [GenerateOS_of_existing]
  exact IsNotExist_of_file _ filename [] (by simp)

/-- C19 at a concrete input: on the empty file system the size 4 lots is rejected, os.img is
left empty, and a second call with the size 4 fails with File already exists. -/
theorem GenerateOS_leaves_empty_file_witness :
    (GenerateOS framed.proto humanize.parseOrReject sampleSource emptyFS
      (str "os.img") (str "1.2.3") (str "4 lots") [] false).1
      = some (errors.New (str "unhandled size name: lots")) ∧
    (GenerateOS framed.proto humanize.parseOrReject sampleSource emptyFS
      (str "os.img") (str "1.2.3") (str "4 lots") [] false).2.files (str "os.img") = some [] ∧
    (GenerateOS framed.proto humanize.parseOrReject sampleSource
      (GenerateOS framed.proto humanize.parseOrReject sampleSource emptyFS
        (str "os.img") (str "1.2.3") (str "4 lots") [] false).2
      (str "os.img") (str "1.2.3") (str "4") [] false).1
      = some (errors.New (str "File already exists")) :=
  have h := GenerateOS_leaves_empty_file framed.proto humanize.parseOrReject sampleSource
    emptyFS (str "os.img") (str "1.2.3") (str "4 lots") [] false
    (errors.New (str "unhandled size name: lots")) rfl rfl rfl
  ⟨h.1, h.2.2.1, h.2.2.2.2 framed.proto humanize.parseOrReject sampleSource (str "1.2.3")
    (str "4") [] false⟩

/-! ## Shape of the digest and of the validation result -/

theorem Hash_Hash (os : OS) : os.Hash.Hash = os.Hash := by
  have h := calcHash_Hash os
  simp only [OS.Hash] at h ⊢
  rw [h]

theorem concat_eq_of_fields (a b : OS)
    (h : a.MockOS.Version ++ a.MockOS.Cookie ++ a.MockOS.Padding
        ++ [if a.MockOS.Incompatible then 1 else 0] ++ a.MockOS.ActivationFailMessage
      = b.MockOS.Version ++ b.MockOS.Cookie ++ b.MockOS.Padding
        ++ [if b.MockOS.Incompatible then 1 else 0] ++ b.MockOS.ActivationFailMessage) :
    calcHash a = calcHash b := by
  rw [calcHash_eq_Sum, calcHash_eq_Sum, h]

/-- C15: calcHash is a total function whose result is always sixteen bytes long, whatever
the package. -/
theorem calcHash_sixteen_bytes (os : OS) : (calcHash os).length = 16 :=
  length_calcHash os

set_option maxRecDepth 100000 in
/-- C15 at a concrete input: for the package whose version, cookie, padding and message are
all empty the digest is the sixteen-byte MD5 checksum of the single flag byte 0. -/
theorem calcHash_sixteen_bytes_witness :
    (calcHash zeroOS).length = 16 ∧
    calcHash zeroOS = [0x93, 0xb8, 0x85, 0xad, 0xfe, 0x0d, 0xa0, 0x89,
      0xcd, 0xf6, 0x34, 0x90, 0x4f, 0xd5, 0x9f, 0x71] :=
  ⟨calcHash_sixteen_bytes zeroOS, by decide!⟩

/-- C16: two packages that agree on version, cookie, padding, flag and message have the same
calcHash whatever their Hash fields hold; Hash applied twice gives the same package as Hash
applied once, and Hash leaves the other five fields as they were. -/
theorem calcHash_independent_of_Hash (a b : OS)
    (hv : a.MockOS.Version = b.MockOS.Version) (hc : a.MockOS.Cookie = b.MockOS.Cookie)
    (hp : a.MockOS.Padding = b.MockOS.Padding)
    (hi : a.MockOS.Incompatible = b.MockOS.Incompatible)
    (hm : a.MockOS.ActivationFailMessage = b.MockOS.ActivationFailMessage) :
    calcHash a = calcHash b ∧
    a.Hash.Hash = a.Hash ∧
    a.Hash.MockOS.Version = a.MockOS.Version ∧
    a.Hash.MockOS.Cookie = a.MockOS.Cookie ∧
    a.Hash.MockOS.Padding = a.MockOS.Padding ∧
    a.Hash.MockOS.Incompatible = a.MockOS.Incompatible ∧
    a.Hash.MockOS.ActivationFailMessage = a.MockOS.ActivationFailMessage ∧
    a.Hash.MockOS.Hash = calcHash a ∧
    a.Hash = b.Hash :=
  have h := calcHash_congr a b hv hc hp hi hm
  ⟨h, Hash_Hash a, rfl, rfl, rfl, rfl, rfl, rfl, by
    obtain ⟨⟨av, ac, ap, ai, am, ah⟩⟩ := a
    obtain ⟨⟨bv, bc, bp, bi, bm, bh⟩⟩ := b
    simp only at hv hc hp hi hm
    subst hv hc hp hi hm
    simp only [OS.Hash]
    rw [h]⟩

/-- C16 at a concrete input: the sample package and the same package with its digest
replaced by three other bytes. -/
theorem calcHash_independent_of_Hash_witness :
    calcHash sampleOS
      = calcHash { sampleOS with MockOS := { sampleOS.MockOS with Hash := [1, 2, 3] } } ∧
    sampleOS.Hash.Hash = sampleOS.Hash :=
  have h := calcHash_independent_of_Hash sampleOS
    { sampleOS with MockOS := { sampleOS.MockOS with Hash := [1, 2, 3] } } rfl rfl rfl rfl rfl
  ⟨h.1, h.2.1⟩

/-- C17: ValidateOS returns either (package, nil, nil) or (nil, error, install error); the
package is present exactly when the error is nil, and exactly when the install error is nil;
an install error has one of the types PARSE_FAIL, INTEGRITY_FAIL, INCOMPATIBLE and its
detail is non-empty exactly when the type is INCOMPATIBLE. -/
theorem ValidateOS_result_shape (proto : Proto) (buf : List UInt8) :
    ((∃ os, ValidateOS proto buf = (some os, none, none)) ∨
      (∃ e ie, ValidateOS proto buf = (none, some e, some ie))) ∧
    ((ValidateOS proto buf).1 ≠ none ↔ (ValidateOS proto buf).2.1 = none) ∧
    ((ValidateOS proto buf).2.1 = none ↔ (ValidateOS proto buf).2.2 = none) ∧
    ∀ ie, (ValidateOS proto buf).2.2 = some ie →
      (ie.InstallError.Type_ = .PARSE_FAIL ∨ ie.InstallError.Type_ = .INTEGRITY_FAIL ∨
        ie.InstallError.Type_ = .INCOMPATIBLE) ∧
      (ie.InstallError.Detail ≠ [] ↔ ie.InstallError.Type_ = .INCOMPATIBLE) := by
  have hd : str "Unsupported OS Version" ≠ [] := by decide
  rcases ValidateOS_cases proto buf with ⟨e, _, hv⟩ | ⟨_, _, hv⟩ | ⟨_, _, _, hv⟩ |
      ⟨_, _, _, hv⟩
  · rw [hv]
    refine ⟨Or.inr ⟨_, _, rfl⟩, by simp, by simp, ?_⟩
    intro ie hie
    simp only [Option.some.injEq] at hie
    subst hie
    simp
  · rw [hv]
    refine ⟨Or.inr ⟨_, _, rfl⟩, by simp, by simp, ?_⟩
    intro ie hie
    simp only [Option.some.injEq] at hie
    subst hie
    simp
  · rw [hv]
    refine ⟨Or.inr ⟨_, _, rfl⟩, by simp, by simp, ?_⟩
    intro ie hie
    simp only [Option.some.injEq] at hie
    subst hie
    simp [hd]
  · rw [hv]
    refine ⟨Or.inl ⟨_, rfl⟩, by simp, by simp, ?_⟩
    intro ie hie
    simp at hie

/-- C18: calcHash depends only on the concatenation Version ++ Cookie ++ Padding ++ flag
byte ++ ActivationFailMessage, not on where the fields begin and end: packages with equal
concatenations have equal digests, and a stored digest that verifies for one verifies for
the other. In particular, for every version and cookie, (no padding, flag on, message of
one zero byte) and (padding of the one byte 1, flag off, no message) have the same digest,
and so have (version 1.2.3c, cookie ookiestring) and (version 1.2.3, cookie cookiestring)
with equal remaining fields. -/
theorem calcHash_field_boundaries (a b : OS)
    (h : a.MockOS.Version ++ a.MockOS.Cookie ++ a.MockOS.Padding
        ++ [if a.MockOS.Incompatible then 1 else 0] ++ a.MockOS.ActivationFailMessage
      = b.MockOS.Version ++ b.MockOS.Cookie ++ b.MockOS.Padding
        ++ [if b.MockOS.Incompatible then 1 else 0] ++ b.MockOS.ActivationFailMessage) :
    calcHash a = calcHash b ∧
    (a.MockOS.Hash = b.MockOS.Hash → (a.CheckHash = true ↔ b.CheckHash = true)) ∧
    (∀ (v c : GoString) (d : List UInt8),
      calcHash ⟨{ Version := v, Cookie := c, Padding := [], Incompatible := true,
                  ActivationFailMessage := [0], Hash := d }⟩
        = calcHash ⟨{ Version := v, Cookie := c, Padding := [1], Incompatible := false,
                      ActivationFailMessage := [], Hash := d }⟩) ∧
    (∀ (p : List UInt8) (i : Bool) (msg : GoString) (d : List UInt8),
      calcHash ⟨{ Version := str "1.2.3c", Cookie := str "ookiestring", Padding := p,
                  Incompatible := i, ActivationFailMessage := msg, Hash := d }⟩
        = calcHash ⟨{ Version := str "1.2.3", Cookie := str "cookiestring", Padding := p,
                      Incompatible := i, ActivationFailMessage := msg, Hash := d }⟩) := by
  have hab := concat_eq_of_fields a b h
  refine ⟨hab, ?_, ?_, ?_⟩
  · intro hh
    rw [CheckHash_iff, CheckHash_iff, hh, hab]
  · intro v c d
    apply concat_eq_of_fields
    simp
  · intro p i msg d
    apply concat_eq_of_fields
    have hs : str "1.2.3c" ++ str "ookiestring" = str "1.2.3" ++ str "cookiestring" := by
      decide
    simp only [hs]

/-- C18 at a concrete input: with version 1.2.3 and the constant cookie, the package with
the flag on and a message of one zero byte, and the package with the padding byte 1, flag
off, no message and the same stored digest: the digests are equal and both verify. -/
theorem calcHash_field_boundaries_witness :
    calcHash flagOnOS = calcHash paddingOneOS ∧
    flagOnOS.MockOS.Padding ≠ paddingOneOS.MockOS.Padding ∧
    flagOnOS.CheckHash = true ∧ paddingOneOS.CheckHash = true :=
  have h := calcHash_field_boundaries flagOnOS paddingOneOS (by decide)
  ⟨h.1, by decide, CheckHash_Hash _, (h.2.1 rfl).1 (CheckHash_Hash _)⟩

/-! ## The wire format: varints and length-delimited payloads -/

theorem protobuf.toNat_ofNat (n : Nat) (h : n < 256) : (UInt8.ofNat n).toNat = n := by
  simp [UInt8.ofNat, UInt8.toNat, Nat.mod_eq_of_lt h]

theorem protobuf.lt_iff_toNat (a b : UInt8) : a < b ↔ a.toNat < b.toNat := by
  rw [UInt8.lt_def, BitVec.lt_def]
  rfl

theorem protobuf.length_putVarint_pos (fuel n : Nat) :
    0 < (protobuf.putVarint (fuel + 1) n).length := by
  unfold protobuf.putVarint
  split <;> simp

theorem protobuf.getVarint_putVarint (fuel n : Nat) (rest : List UInt8)
    (h : n < 128 ^ (fuel + 1)) :
    protobuf.getVarint (fuel + 1) (protobuf.putVarint (fuel + 1) n ++ rest) = some (n, rest) := by
  induction fuel generalizing n with
  | zero =>
    have hn : n < 128 := by simpa using h
    have hlt : UInt8.ofNat n < 128 := by
      rw [protobuf.lt_iff_toNat, protobuf.toNat_ofNat n (by omega)]
      exact hn
    simp [protobuf.putVarint, protobuf.getVarint, hn, hlt, protobuf.toNat_ofNat n (by omega)]
  | succ fuel ih =>
    by_cases hn : n < 128
    · have hlt : UInt8.ofNat n < 128 := by
        rw [protobuf.lt_iff_toNat, protobuf.toNat_ofNat n (by omega)]
        exact hn
      rw [protobuf.putVarint]
      simp [protobuf.getVarint, hn, hlt, protobuf.toNat_ofNat n (by omega)]
    · have hb : n % 128 + 128 < 256 := by omega
      have hge : ¬ UInt8.ofNat (n % 128 + 128) < 128 := by
        rw [protobuf.lt_iff_toNat, protobuf.toNat_ofNat _ hb]
        show ¬ n % 128 + 128 < 128
        omega
      have hdiv : n / 128 < 128 ^ (fuel + 1) := by
        rw [Nat.div_lt_iff_lt_mul (by norm_num)]
        calc n < 128 ^ (fuel + 1 + 1) := h
          _ = 128 ^ (fuel + 1) * 128 := by rw [pow_succ]
      rw [protobuf.putVarint]
      simp only [hn, if_false, List.cons_append, protobuf.getVarint, hge]
      rw [ih (n / 128) hdiv]
      simp only [Option.map_some', protobuf.toNat_ofNat _ hb]
      congr 2
      omega

theorem protobuf.getVarint_take_putVarint (fuel n j : Nat)
    (h : j < (protobuf.putVarint fuel n).length) :
    protobuf.getVarint fuel ((protobuf.putVarint fuel n).take j) = none := by
  induction fuel generalizing n j with
  | zero => simp [protobuf.putVarint] at h
  | succ fuel ih =>
    cases j with
    | zero => simp [protobuf.getVarint]
    | succ j =>
      by_cases hn : n < 128
      · simp [protobuf.putVarint, hn] at h
      · have hb : n % 128 + 128 < 256 := by omega
        have hge : ¬ UInt8.ofNat (n % 128 + 128) < 128 := by
          rw [protobuf.lt_iff_toNat, protobuf.toNat_ofNat _ hb]
          show ¬ n % 128 + 128 < 128
          omega
        rw [protobuf.putVarint] at h ⊢
        simp only [hn, if_false, List.length_cons, Nat.add_lt_add_iff_right] at h
        simp only [hn, if_false, List.take_succ_cons, protobuf.getVarint, hge]
        rw [ih (n / 128) j h]
        rfl

theorem protobuf.readVarint_putVarint (n : Nat) (rest : List UInt8) (h : n < 2 ^ 64) :
    protobuf.readVarint (protobuf.putVarint 10 n ++ rest) = .value (n, rest) := by
  have h2 : n < 128 ^ (9 + 1) := by
    calc n < 2 ^ 64 := h
      _ ≤ 128 ^ (9 + 1) := by norm_num
  simp only [protobuf.readVarint, protobuf.getVarint_putVarint 9 n rest h2, h, if_true]

theorem protobuf.readVarint_take_putVarint (n j : Nat)
    (h : j < (protobuf.putVarint 10 n).length) :
    protobuf.readVarint ((protobuf.putVarint 10 n).take j) = .malformed := by
  simp only [protobuf.readVarint, protobuf.getVarint_take_putVarint 10 n j h]

theorem protobuf.readBytes_put (p rest : List UInt8) (h : p.length < 2 ^ 64) :
    protobuf.readBytes (protobuf.putVarint 10 p.length ++ (p ++ rest)) = .value (p, rest) := by
  simp [protobuf.readBytes, protobuf.readVarint_putVarint p.length (p ++ rest) h]

theorem protobuf.readBytes_take (p : List UInt8) (j : Nat) (h : p.length < 2 ^ 64)
    (hj : j < (protobuf.putVarint 10 p.length ++ p).length) :
    protobuf.readBytes ((protobuf.putVarint 10 p.length ++ p).take j) = .malformed := by
  by_cases hv : j < (protobuf.putVarint 10 p.length).length
  · rw [List.take_append_of_le_length (by omega)]
    simp only [protobuf.readBytes, protobuf.readVarint_take_putVarint p.length j hv]
  · have hsplit : (protobuf.putVarint 10 p.length ++ p).take j
        = protobuf.putVarint 10 p.length
          ++ p.take (j - (protobuf.putVarint 10 p.length).length) := by
      rw [List.take_append_eq_append_take, List.take_of_length_le (by omega)]
    rw [hsplit]
    simp only [protobuf.readBytes, protobuf.readVarint_putVarint p.length _ h]
    simp only [List.length_append] at hj
    simp
    omega

/-! ## The wire format: one field -/

theorem protobuf.readVarint_cons_small (t : UInt8) (X : List UInt8) (ht : t < 128) :
    protobuf.readVarint (t :: X) = .value (t.toNat, X) := by
  have h64 : t.toNat < 18446744073709551616 := lt_trans (UInt8.toNat_lt t) (by norm_num)
  simp [protobuf.readVarint, protobuf.getVarint, ht, h64]

theorem protobuf.fields_cons_small (t : UInt8) (X : List UInt8) (ht : t < 128) (fuel : Nat)
    (m : pb.MockOS) :
    protobuf.fields (fuel + 1) (t :: X) m =
      match protobuf.field (t.toNat / 8) (t.toNat % 8) X m with
      | .value (rest, m) => protobuf.fields fuel rest m
      | .malformed => .malformed
      | .unmodelled => .unmodelled := by
  simp only [protobuf.fields, protobuf.readVarint_cons_small t X ht]

theorem protobuf.fields_enc (f : protobuf.Field) (hwf : f.wf) (fuel : Nat)
    (rest : List UInt8) (m : pb.MockOS) :
    protobuf.fields (fuel + 1) (f.enc ++ rest) m
      = if f.valid then protobuf.fields fuel rest (f.store m) else .malformed := by
  cases f with
  | version s =>
    have he : (protobuf.Field.version s).enc ++ rest
        = 10 :: (protobuf.putVarint 10 s.length ++ (s ++ rest)) := by
      simp [protobuf.Field.enc, protobuf.putLen, protobuf.numVersion, protobuf.putVarint]
    have hf : ∀ X, protobuf.field ((10 : UInt8).toNat / 8) ((10 : UInt8).toNat % 8) X m
        = protobuf.stringField X fun s => { m with Version := s } := fun _ => rfl
    rw [he, protobuf.fields_cons_small 10 _ (by decide), hf]
    cases hv : protobuf.validUTF8 s <;>
      simp [protobuf.stringField, protobuf.readBytes_put s rest hwf, protobuf.Field.valid,
        protobuf.Field.store, hv]
  | cookie s =>
    have he : (protobuf.Field.cookie s).enc ++ rest
        = 18 :: (protobuf.putVarint 10 s.length ++ (s ++ rest)) := by
      simp [protobuf.Field.enc, protobuf.putLen, protobuf.numCookie, protobuf.putVarint]
    have hf : ∀ X, protobuf.field ((18 : UInt8).toNat / 8) ((18 : UInt8).toNat % 8) X m
        = protobuf.stringField X fun s => { m with Cookie := s } := fun _ => rfl
    rw [he, protobuf.fields_cons_small 18 _ (by decide), hf]
    cases hv : protobuf.validUTF8 s <;>
      simp [protobuf.stringField, protobuf.readBytes_put s rest hwf, protobuf.Field.valid,
        protobuf.Field.store, hv]
  | padding p =>
    have he : (protobuf.Field.padding p).enc ++ rest
        = 26 :: (protobuf.putVarint 10 p.length ++ (p ++ rest)) := by
      simp [protobuf.Field.enc, protobuf.putLen, protobuf.numPadding, protobuf.putVarint]
    have hf : ∀ X, protobuf.field ((26 : UInt8).toNat / 8) ((26 : UInt8).toNat % 8) X m
        = protobuf.bytesField X fun s => { m with Padding := s } := fun _ => rfl
    rw [he, protobuf.fields_cons_small 26 _ (by decide), hf]
    simp only [protobuf.bytesField, protobuf.readBytes_put p rest hwf, protobuf.Field.valid,
      protobuf.Field.store, if_true]
  | incompatible =>
    have he : protobuf.Field.incompatible.enc ++ rest = 32 :: 1 :: rest := by
      simp [protobuf.Field.enc, protobuf.numIncompatible, protobuf.putVarint]
    have hf : ∀ X, protobuf.field ((32 : UInt8).toNat / 8) ((32 : UInt8).toNat % 8) X m
        = protobuf.boolField X fun b => { m with Incompatible := b } := fun _ => rfl
    rw [he, protobuf.fields_cons_small 32 _ (by decide), hf]
    simp only [protobuf.boolField, protobuf.readVarint_cons_small 1 rest (by decide),
      protobuf.Field.valid, protobuf.Field.store, if_true]
    rfl
  | activationFailMessage s =>
    have he : (protobuf.Field.activationFailMessage s).enc ++ rest
        = 42 :: (protobuf.putVarint 10 s.length ++ (s ++ rest)) := by
      simp [protobuf.Field.enc, protobuf.putLen, protobuf.numActivationFailMessage,
        protobuf.putVarint]
    have hf : ∀ X, protobuf.field ((42 : UInt8).toNat / 8) ((42 : UInt8).toNat % 8) X m
        = protobuf.stringField X fun s => { m with ActivationFailMessage := s } := fun _ => rfl
    rw [he, protobuf.fields_cons_small 42 _ (by decide), hf]
    cases hv : protobuf.validUTF8 s <;>
      simp [protobuf.stringField, protobuf.readBytes_put s rest hwf, protobuf.Field.valid,
        protobuf.Field.store, hv]
  | hash h =>
    have he : (protobuf.Field.hash h).enc ++ rest
        = 50 :: (protobuf.putVarint 10 h.length ++ (h ++ rest)) := by
      simp [protobuf.Field.enc, protobuf.putLen, protobuf.numHash, protobuf.putVarint]
    have hf : ∀ X, protobuf.field ((50 : UInt8).toNat / 8) ((50 : UInt8).toNat % 8) X m
        = protobuf.bytesField X fun s => { m with Hash := s } := fun _ => rfl
    rw [he, protobuf.fields_cons_small 50 _ (by decide), hf]
    simp only [protobuf.bytesField, protobuf.readBytes_put h rest hwf, protobuf.Field.valid,
      protobuf.Field.store, if_true]

theorem protobuf.length_enc_pos (f : protobuf.Field) : 0 < f.enc.length := by
  have h : ∀ (n : Nat) (xs : List UInt8), 0 < (protobuf.putVarint 10 n ++ xs).length := by
    intro n xs
    have hp : 0 < (protobuf.putVarint 10 n).length := protobuf.length_putVarint_pos 9 n
    rw [List.length_append]
    omega
  cases f <;> exact h _ _

theorem protobuf.fields_take_enc (f : protobuf.Field) (hwf : f.wf) (fuel j : Nat)
    (m : pb.MockOS) (h0 : 0 < j) (hj : j < f.enc.length) :
    protobuf.fields (fuel + 1) (f.enc.take j) m = .malformed := by
  obtain ⟨j, rfl⟩ : ∃ i, j = i + 1 := ⟨j - 1, by omega⟩
  cases f with
  | version s =>
    have he : (protobuf.Field.version s).enc
        = 10 :: (protobuf.putVarint 10 s.length ++ s) := by
      simp [protobuf.Field.enc, protobuf.putLen, protobuf.numVersion, protobuf.putVarint]
    have hf : ∀ X, protobuf.field ((10 : UInt8).toNat / 8) ((10 : UInt8).toNat % 8) X m
        = protobuf.stringField X fun s => { m with Version := s } := fun _ => rfl
    rw [he] at hj ⊢
    rw [List.take_succ_cons, protobuf.fields_cons_small 10 _ (by decide), hf]
    simp only [protobuf.stringField,
      protobuf.readBytes_take s j hwf (by simpa using hj)]
  | cookie s =>
    have he : (protobuf.Field.cookie s).enc
        = 18 :: (protobuf.putVarint 10 s.length ++ s) := by
      simp [protobuf.Field.enc, protobuf.putLen, protobuf.numCookie, protobuf.putVarint]
    have hf : ∀ X, protobuf.field ((18 : UInt8).toNat / 8) ((18 : UInt8).toNat % 8) X m
        = protobuf.stringField X fun s => { m with Cookie := s } := fun _ => rfl
    rw [he] at hj ⊢
    rw [List.take_succ_cons, protobuf.fields_cons_small 18 _ (by decide), hf]
    simp only [protobuf.stringField,
      protobuf.readBytes_take s j hwf (by simpa using hj)]
  | padding p =>
    have he : (protobuf.Field.padding p).enc
        = 26 :: (protobuf.putVarint 10 p.length ++ p) := by
      simp [protobuf.Field.enc, protobuf.putLen, protobuf.numPadding, protobuf.putVarint]
    have hf : ∀ X, protobuf.field ((26 : UInt8).toNat / 8) ((26 : UInt8).toNat % 8) X m
        = protobuf.bytesField X fun s => { m with Padding := s } := fun _ => rfl
    rw [he] at hj ⊢
    rw [List.take_succ_cons, protobuf.fields_cons_small 26 _ (by decide), hf]
    simp only [protobuf.bytesField,
      protobuf.readBytes_take p j hwf (by simpa using hj)]
  | incompatible =>
    have he : protobuf.Field.incompatible.enc = [32, 1] := by
      simp [protobuf.Field.enc, protobuf.numIncompatible, protobuf.putVarint]
    have hf : ∀ X, protobuf.field ((32 : UInt8).toNat / 8) ((32 : UInt8).toNat % 8) X m
        = protobuf.boolField X fun b => { m with Incompatible := b } := fun _ => rfl
    rw [he] at hj ⊢
    have hj0 : j = 0 := by
      simp only [List.length_cons, List.length_nil] at hj
      omega
    subst hj0
    rw [List.take_succ_cons, protobuf.fields_cons_small 32 _ (by decide), hf]
    rfl
  | activationFailMessage s =>
    have he : (protobuf.Field.activationFailMessage s).enc
        = 42 :: (protobuf.putVarint 10 s.length ++ s) := by
      simp [protobuf.Field.enc, protobuf.putLen, protobuf.numActivationFailMessage,
        protobuf.putVarint]
    have hf : ∀ X, protobuf.field ((42 : UInt8).toNat / 8) ((42 : UInt8).toNat % 8) X m
        = protobuf.stringField X fun s => { m with ActivationFailMessage := s } := fun _ => rfl
    rw [he] at hj ⊢
    rw [List.take_succ_cons, protobuf.fields_cons_small 42 _ (by decide), hf]
    simp only [protobuf.stringField,
      protobuf.readBytes_take s j hwf (by simpa using hj)]
  | hash h =>
    have he : (protobuf.Field.hash h).enc
        = 50 :: (protobuf.putVarint 10 h.length ++ h) := by
      simp [protobuf.Field.enc, protobuf.putLen, protobuf.numHash, protobuf.putVarint]
    have hf : ∀ X, protobuf.field ((50 : UInt8).toNat / 8) ((50 : UInt8).toNat % 8) X m
        = protobuf.bytesField X fun s => { m with Hash := s } := fun _ => rfl
    rw [he] at hj ⊢
    rw [List.take_succ_cons, protobuf.fields_cons_small 50 _ (by decide), hf]
    simp only [protobuf.bytesField,
      protobuf.readBytes_take h j hwf (by simpa using hj)]

/-! ## The wire format: a list of fields, whole or cut -/

theorem protobuf.fields_nil (fuel : Nat) (m : pb.MockOS) :
    protobuf.fields fuel [] m = .value m := by
  cases fuel <;> rfl

theorem protobuf.fields_encodeFields (fs : List protobuf.Field) (hwf : ∀ f ∈ fs, f.wf)
    (fuel : Nat) (m : pb.MockOS) (hfuel : fs.length ≤ fuel) :
    protobuf.fields fuel (protobuf.encodeFields fs) m = protobuf.storeAll fs m := by
  induction fs generalizing fuel m with
  | nil => simp [protobuf.encodeFields, protobuf.fields_nil, protobuf.storeAll]
  | cons f fs ih =>
    obtain ⟨fuel, rfl⟩ : ∃ i, fuel = i + 1 := ⟨fuel - 1, by simp at hfuel; omega⟩
    have he : protobuf.encodeFields (f :: fs) = f.enc ++ protobuf.encodeFields fs := by
      simp [protobuf.encodeFields]
    rw [he, protobuf.fields_enc f (hwf f (by simp)), protobuf.storeAll]
    rw [ih (fun g hg => hwf g (by simp [hg])) fuel (f.store m) (by simpa using hfuel)]

theorem protobuf.length_le_encodeFields (fs : List protobuf.Field) :
    fs.length ≤ (protobuf.encodeFields fs).length := by
  induction fs with
  | nil => simp
  | cons f fs ih =>
    have he : protobuf.encodeFields (f :: fs) = f.enc ++ protobuf.encodeFields fs := by
      simp [protobuf.encodeFields]
    have hp := protobuf.length_enc_pos f
    rw [he, List.length_append, List.length_cons]
    omega

theorem protobuf.fields_take (fs : List protobuf.Field) (hwf : ∀ f ∈ fs, f.wf)
    (hvalid : ∀ f ∈ fs, f.valid = true) (k fuel : Nat) (m : pb.MockOS) (hfuel : k ≤ fuel)
    (hk : k ≤ (protobuf.encodeFields fs).length) :
    protobuf.fields fuel ((protobuf.encodeFields fs).take k) m =
      match protobuf.wholeFields fs k with
      | some j => .value ((fs.take j).foldl (fun m f => f.store m) m)
      | none => .malformed := by
  induction fs generalizing k fuel m with
  | nil =>
    have hk0 : k = 0 := by simpa [protobuf.encodeFields] using hk
    subst hk0
    simp [protobuf.encodeFields, protobuf.fields_nil, protobuf.wholeFields]
  | cons f fs ih =>
    cases k with
    | zero => simp [protobuf.fields_nil, protobuf.wholeFields]
    | succ k =>
      obtain ⟨fuel, rfl⟩ : ∃ i, fuel = i + 1 := ⟨fuel - 1, by omega⟩
      have he : protobuf.encodeFields (f :: fs) = f.enc ++ protobuf.encodeFields fs := by
        simp [protobuf.encodeFields]
      have hp := protobuf.length_enc_pos f
      rw [he] at hk ⊢
      by_cases hle : f.enc.length ≤ k + 1
      · have hsplit : (f.enc ++ protobuf.encodeFields fs).take (k + 1)
            = f.enc ++ (protobuf.encodeFields fs).take (k + 1 - f.enc.length) := by
          rw [List.take_append_eq_append_take, List.take_of_length_le hle]
        rw [hsplit, protobuf.fields_enc f (hwf f (by simp)), hvalid f (by simp)]
        simp only [if_true, protobuf.wholeFields, hle]
        rw [ih (fun g hg => hwf g (by simp [hg])) (fun g hg => hvalid g (by simp [hg]))
          (k + 1 - f.enc.length) fuel (f.store m) (by omega)
          (by simp only [List.length_append] at hk; omega)]
        cases protobuf.wholeFields fs (k + 1 - f.enc.length) <;> simp
      · have hlt : k + 1 < f.enc.length := by omega
        rw [List.take_append_of_le_length (by omega),
          protobuf.fields_take_enc f (hwf f (by simp)) fuel (k + 1) m (by omega) hlt]
        simp [protobuf.wholeFields, hle]

/-! ## The wire format: messages -/

theorem protobuf.validUTF8_nil : protobuf.validUTF8 [] = true := rfl

theorem protobuf.storeAll_opt (c : Prop) [Decidable c] (f : protobuf.Field)
    (rest : List protobuf.Field) (m : pb.MockOS)
    (h : c → f.valid = true ∧ f.store m = m) :
    protobuf.storeAll ((if c then [] else [f]) ++ rest) m
      = if f.valid then protobuf.storeAll rest (f.store m) else .malformed := by
  by_cases hc : c
  · obtain ⟨hv, hs⟩ := h hc
    simp [hc, hv, hs]
  · simp [hc, protobuf.storeAll]

theorem protobuf.storeAll_present (m : pb.MockOS) :
    protobuf.storeAll (protobuf.present m) {}
      = if protobuf.validStrings m then .value m else .malformed := by
  obtain ⟨v, c, p, i, a, h⟩ := m
  unfold protobuf.present
  rw [protobuf.storeAll_opt _ _ _ _ (by
    intro hv
    try simp only at hv
    subst hv
    exact ⟨rfl, rfl⟩)]
  simp only [protobuf.Field.valid, protobuf.Field.store, protobuf.validStrings]
  by_cases hvv : protobuf.validUTF8 v = true
  swap
  · simp [hvv]
  rw [if_pos hvv]
  rw [protobuf.storeAll_opt _ _ _ _ (by
    intro hv
    try simp only at hv
    subst hv
    exact ⟨rfl, rfl⟩)]
  simp only [protobuf.Field.valid, protobuf.Field.store]
  by_cases hvc : protobuf.validUTF8 c = true
  swap
  · simp [hvc]
  rw [if_pos hvc]
  rw [protobuf.storeAll_opt _ _ _ _ (by
    intro hv
    try simp only at hv
    subst hv
    exact ⟨rfl, rfl⟩)]
  simp only [protobuf.Field.valid, protobuf.Field.store, if_true]
  have hflag : ∀ (rest : List protobuf.Field) (m0 : pb.MockOS), m0.Incompatible = false →
      protobuf.storeAll ((if i = true then [protobuf.Field.incompatible] else []) ++ rest) m0
        = protobuf.storeAll rest { m0 with Incompatible := i } := by
    intro rest m0 h0
    cases i
    · obtain ⟨_, _, _, i0, _, _⟩ := m0
      simp only at h0
      subst h0
      simp
    · simp [protobuf.storeAll, protobuf.Field.valid, protobuf.Field.store]
  rw [hflag _ _ rfl]
  rw [protobuf.storeAll_opt _ _ _ _ (by
    intro hv
    try simp only at hv
    subst hv
    exact ⟨rfl, rfl⟩)]
  simp only [protobuf.Field.valid, protobuf.Field.store]
  by_cases hva : protobuf.validUTF8 a = true
  swap
  · simp [hva]
  rw [if_pos hva]
  have hlast : ∀ (m0 : pb.MockOS), m0.Hash = [] →
      protobuf.storeAll (if h = [] then [] else [protobuf.Field.hash h]) m0
        = .value { m0 with Hash := h } := by
    intro m0 h0
    by_cases hh : h = []
    · obtain ⟨_, _, _, _, _, h1⟩ := m0
      simp only at h0
      subst h0 hh
      simp [protobuf.storeAll]
    · simp [hh, protobuf.storeAll, protobuf.Field.valid, protobuf.Field.store]
  rw [hlast _ rfl]
  simp [hvv, hvc, hva]

theorem protobuf.length_payload_le (f : protobuf.Field) (hlen : f.enc.length < 2 ^ 64) :
    f.wf := by
  cases f <;>
    simp only [protobuf.Field.enc, protobuf.putLen, List.length_append] at hlen <;>
    simp only [protobuf.Field.wf] <;>
    omega

theorem protobuf.length_enc_le_of_mem (fs : List protobuf.Field) (f : protobuf.Field)
    (hf : f ∈ fs) : f.enc.length ≤ (protobuf.encodeFields fs).length := by
  induction fs with
  | nil => simp at hf
  | cons g gs ih =>
    have he : protobuf.encodeFields (g :: gs) = g.enc ++ protobuf.encodeFields gs := by
      simp [protobuf.encodeFields]
    rw [he, List.length_append]
    rcases List.mem_cons.1 hf with rfl | hmem
    · omega
    · have := ih hmem
      omega

theorem protobuf.wf_of_length (fs : List protobuf.Field)
    (hlen : (protobuf.encodeFields fs).length < 2 ^ 64) : ∀ f ∈ fs, f.wf := by
  intro f hf
  exact protobuf.length_payload_le f
    (lt_of_le_of_lt (protobuf.length_enc_le_of_mem fs f hf) hlen)

theorem protobuf.valid_present (m : pb.MockOS) (hv : protobuf.validStrings m = true) :
    ∀ f ∈ protobuf.present m, f.valid = true := by
  intro f hf
  simp only [protobuf.validStrings, Bool.and_eq_true] at hv
  obtain ⟨⟨h1, h2⟩, h3⟩ := hv
  simp only [protobuf.present, List.mem_append] at hf
  rcases hf with hf | hf | hf | hf | hf | hf <;>
    split at hf <;> simp at hf <;> subst hf <;> simp [protobuf.Field.valid, *]

theorem protobuf.decode_of_encode (m : pb.MockOS) (hlen : (protobuf.encode m).length < 2 ^ 64) :
    protobuf.decode (protobuf.encode m)
      = if protobuf.validStrings m then .value m else .malformed := by
  rw [protobuf.decode, protobuf.encode,
    protobuf.fields_encodeFields _ (protobuf.wf_of_length _ hlen) _ _
      (protobuf.length_le_encodeFields _),
    protobuf.storeAll_present]

theorem protobuf.decode_take (m : pb.MockOS) (hlen : (protobuf.encode m).length < 2 ^ 64)
    (hv : protobuf.validStrings m = true) (k : Nat) (hk : k ≤ (protobuf.encode m).length) :
    protobuf.decode ((protobuf.encode m).take k) =
      match protobuf.wholeFields (protobuf.present m) k with
      | some j => .value (((protobuf.present m).take j).foldl (fun m f => f.store m) {})
      | none => .malformed := by
  rw [protobuf.decode, protobuf.encode]
  exact protobuf.fields_take _ (protobuf.wf_of_length _ hlen) (protobuf.valid_present m hv) k _ _
    (by rw [List.length_take]; exact le_min (le_refl k) hk) hk

theorem protobuf.decode_nil : protobuf.decode [] = .value {} := rfl

theorem protobuf.Marshal_eq (m : pb.MockOS) (out : List UInt8)
    (h : protobuf.Marshal m = .value out) :
    protobuf.validStrings m = true ∧ (protobuf.encode m).length < 2 ^ 31 ∧
      out = protobuf.encode m := by
  unfold protobuf.Marshal at h
  split at h
  · cases h
  · rename_i hv
    split at h
    · cases h
    · rename_i hl
      simp only [protobuf.Decoded.value.injEq] at h
      refine ⟨by simpa using hv, by omega, h.symm⟩

theorem protobuf.Agrees_proto (failure : GoError) :
    protobuf.Agrees (protobuf.proto failure) := by
  refine ⟨?_, ?_, ?_⟩
  · intro buf m h
    simp [protobuf.proto, h]
  · intro buf h
    simp [protobuf.proto, h]
  · intro m out h
    simp [protobuf.proto, h]

/-! ## The wire format: one byte of a region changed -/

theorem protobuf.set_header_payload (a v p c : List UInt8) (t b : UInt8) (i : Nat)
    (hi : i < p.length) :
    (a ++ (t :: (v ++ p) ++ c)).set (a.length + 1 + v.length + i) b
      = a ++ (t :: (v ++ p.set i b) ++ c) := by
  have h1 : ¬ a.length + 1 + v.length + i < a.length := by omega
  have h2 : a.length + 1 + v.length + i - a.length = (v.length + i) + 1 := by omega
  have h3 : v.length + i < (v ++ p).length := by
    rw [List.length_append]
    omega
  have h4 : ¬ v.length + i < v.length := by omega
  rw [List.set_append, if_neg h1, h2, List.cons_append, List.set_cons_succ, List.set_append,
    if_pos h3, List.set_append, if_neg h4]
  simp

theorem protobuf.enc_region (r : protobuf.Region) :
    ∃ t : UInt8, ∀ q : List UInt8,
      (r.field q).enc = t :: (protobuf.putVarint 10 q.length ++ q) := by
  cases r
  · exact ⟨10, fun q => by
      simp [protobuf.Region.field, protobuf.Field.enc, protobuf.putLen, protobuf.numVersion,
        protobuf.putVarint]⟩
  · exact ⟨18, fun q => by
      simp [protobuf.Region.field, protobuf.Field.enc, protobuf.putLen, protobuf.numCookie,
        protobuf.putVarint]⟩
  · exact ⟨26, fun q => by
      simp [protobuf.Region.field, protobuf.Field.enc, protobuf.putLen, protobuf.numPadding,
        protobuf.putVarint]⟩
  · exact ⟨42, fun q => by
      simp [protobuf.Region.field, protobuf.Field.enc, protobuf.putLen,
        protobuf.numActivationFailMessage, protobuf.putVarint]⟩

theorem protobuf.set_encodeFields (r : protobuf.Region) (pre post : List protobuf.Field)
    (p : List UInt8) (i : Nat) (b : UInt8) (hi : i < p.length) :
    (protobuf.encodeFields (pre ++ r.field p :: post)).set
        ((protobuf.encodeFields pre).length + 1 + (protobuf.putVarint 10 p.length).length + i) b
      = protobuf.encodeFields (pre ++ r.field (p.set i b) :: post) := by
  obtain ⟨t, ht⟩ := protobuf.enc_region r
  have he : ∀ q, protobuf.encodeFields (pre ++ r.field q :: post)
      = protobuf.encodeFields pre
        ++ (t :: (protobuf.putVarint 10 q.length ++ q) ++ protobuf.encodeFields post) := by
    intro q
    simp [protobuf.encodeFields, ht q]
  rw [he p, he (p.set i b), protobuf.set_header_payload _ _ _ _ _ _ _ hi, List.length_set]

theorem protobuf.present_region (r : protobuf.Region) (m : pb.MockOS) (h : r.get m ≠ []) :
    protobuf.present m = r.before m ++ r.field (r.get m) :: r.after m := by
  cases r <;>
    simp only [protobuf.Region.get] at h <;>
    simp [protobuf.present, protobuf.Region.before, protobuf.Region.after, protobuf.Region.get,
      protobuf.Region.field, h]

theorem protobuf.present_put (r : protobuf.Region) (m : pb.MockOS) (q : List UInt8)
    (h : q ≠ []) :
    protobuf.present (r.put m q) = r.before m ++ r.field q :: r.after m := by
  cases r <;>
    simp [protobuf.present, protobuf.Region.before, protobuf.Region.after, protobuf.Region.put,
      protobuf.Region.field, h]

theorem protobuf.set_encode (r : protobuf.Region) (m : pb.MockOS) (i : Nat) (b : UInt8)
    (hi : i < (r.get m).length) :
    (protobuf.encode m).set (r.start m + i) b
      = protobuf.encode (r.put m ((r.get m).set i b)) := by
  have hne : r.get m ≠ [] := by
    intro h
    rw [h] at hi
    simp at hi
  have hne2 : (r.get m).set i b ≠ [] := by
    intro h
    have := congrArg List.length h
    rw [List.length_set] at this
    simp at this
    exact hne this
  rw [protobuf.encode, protobuf.encode, protobuf.present_region r m hne,
    protobuf.present_put r m _ hne2, protobuf.Region.start]
  exact protobuf.set_encodeFields r _ _ _ i b hi

theorem protobuf.Hash_put (r : protobuf.Region) (m : pb.MockOS) (q : List UInt8) :
    (r.put m q).Hash = m.Hash := by
  cases r <;> rfl

/-! ## ValidateOS on the wire format -/

theorem protobuf.ValidateOS_of_malformed (proto : Proto) (hagree : protobuf.Agrees proto)
    (buf : List UInt8) (h : protobuf.decode buf = .malformed) :
    ∃ e, ValidateOS proto buf = (none, some e, some ⟨{ Type_ := .PARSE_FAIL }⟩) := by
  have hne := hagree.2.1 buf h
  cases he : (proto.Unmarshal buf).2 with
  | none => exact absurd he hne
  | some e => exact ⟨e, ValidateOS_of_error proto buf e he⟩

theorem protobuf.ValidateOS_nil (proto : Proto) (hagree : protobuf.Agrees proto) :
    ValidateOS proto [] =
      (none, some (errors.New (str "Hash check failed!")),
        some ⟨{ Type_ := .INTEGRITY_FAIL }⟩) := by
  have hd := hagree.1 [] {} protobuf.decode_nil
  exact ValidateOS_of_mismatch proto [] (by rw [hd])
    (by rw [hd]; exact CheckHash_false_of_length _ (by decide))

theorem ValidateOS_not_parse_fail (proto : Proto) (buf : List UInt8)
    (h : (proto.Unmarshal buf).2 = none) :
    (ValidateOS proto buf).2.2 ≠ some ⟨{ Type_ := .PARSE_FAIL }⟩ := by
  rcases ValidateOS_cases proto buf with ⟨e, he, _⟩ | ⟨_, _, hv⟩ | ⟨_, _, _, hv⟩ |
      ⟨_, _, _, hv⟩
  · rw [h] at he
    cases he
  · rw [hv]
    simp
  · rw [hv]
    simp
  · rw [hv]
    simp

/-! ## The wire format: the fuel of the decoding loop is enough -/

theorem protobuf.getVarint_length (fuel : Nat) (buf : List UInt8) (v : Nat) (rest : List UInt8)
    (h : protobuf.getVarint fuel buf = some (v, rest)) : rest.length < buf.length := by
  induction fuel generalizing buf v rest with
  | zero => simp [protobuf.getVarint] at h
  | succ fuel ih =>
    cases buf with
    | nil => simp [protobuf.getVarint] at h
    | cons b tl =>
      rw [protobuf.getVarint] at h
      split at h
      · simp only [Option.some.injEq, Prod.mk.injEq] at h
        rw [← h.2]
        simp
      · cases hr : protobuf.getVarint fuel tl with
        | none => simp [hr] at h
        | some r =>
          simp only [hr, Option.map_some', Option.some.injEq, Prod.mk.injEq] at h
          have := ih tl r.1 r.2 hr
          rw [← h.2]
          simp only [List.length_cons]
          omega

theorem protobuf.readVarint_length (buf : List UInt8) (v : Nat) (rest : List UInt8)
    (h : protobuf.readVarint buf = .value (v, rest)) : rest.length < buf.length := by
  unfold protobuf.readVarint at h
  cases hr : protobuf.getVarint 10 buf with
  | none => simp [hr] at h
  | some r =>
    simp only [hr] at h
    split at h
    · simp only [protobuf.Decoded.value.injEq] at h
      exact protobuf.getVarint_length 10 buf v rest (by rw [hr, h])
    · cases h

theorem protobuf.readBytes_length (buf p rest : List UInt8)
    (h : protobuf.readBytes buf = .value (p, rest)) : rest.length < buf.length := by
  unfold protobuf.readBytes at h
  cases hr : protobuf.readVarint buf with
  | value r =>
    obtain ⟨n, tl⟩ := r
    have hl := protobuf.readVarint_length buf n tl hr
    simp only [hr] at h
    split at h
    · cases h
    · simp only [protobuf.Decoded.value.injEq, Prod.mk.injEq] at h
      rw [← h.2, List.length_drop]
      omega
  | malformed => simp [hr] at h
  | unmodelled => simp [hr] at h

theorem protobuf.stringField_length (buf : List UInt8) (set : GoString → pb.MockOS)
    (rest : List UInt8) (m : pb.MockOS)
    (h : protobuf.stringField buf set = .value (rest, m)) : rest.length ≤ buf.length := by
  unfold protobuf.stringField at h
  cases hr : protobuf.readBytes buf with
  | value r =>
    have hl := protobuf.readBytes_length buf r.1 r.2 hr
    simp only [hr] at h
    split at h
    · simp only [protobuf.Decoded.value.injEq, Prod.mk.injEq] at h
      rw [← h.1]
      omega
    · cases h
  | malformed => simp [hr] at h
  | unmodelled => simp [hr] at h

theorem protobuf.bytesField_length (buf : List UInt8) (set : List UInt8 → pb.MockOS)
    (rest : List UInt8) (m : pb.MockOS)
    (h : protobuf.bytesField buf set = .value (rest, m)) : rest.length ≤ buf.length := by
  unfold protobuf.bytesField at h
  cases hr : protobuf.readBytes buf with
  | value r =>
    have hl := protobuf.readBytes_length buf r.1 r.2 hr
    simp only [hr, protobuf.Decoded.value.injEq, Prod.mk.injEq] at h
    rw [← h.1]
    omega
  | malformed => simp [hr] at h
  | unmodelled => simp [hr] at h

theorem protobuf.boolField_length (buf : List UInt8) (set : Bool → pb.MockOS)
    (rest : List UInt8) (m : pb.MockOS)
    (h : protobuf.boolField buf set = .value (rest, m)) : rest.length ≤ buf.length := by
  unfold protobuf.boolField at h
  cases hr : protobuf.readVarint buf with
  | value r =>
    have hl := protobuf.readVarint_length buf r.1 r.2 hr
    simp only [hr, protobuf.Decoded.value.injEq, Prod.mk.injEq] at h
    rw [← h.1]
    omega
  | malformed => simp [hr] at h
  | unmodelled => simp [hr] at h

theorem protobuf.skipValue_length (wire : Nat) (buf rest : List UInt8)
    (h : protobuf.skipValue wire buf = .value rest) : rest.length ≤ buf.length := by
  unfold protobuf.skipValue at h
  split at h
  · cases hr : protobuf.readVarint buf with
    | value r =>
      have hl := protobuf.readVarint_length buf r.1 r.2 hr
      simp only [hr, protobuf.Decoded.value.injEq] at h
      rw [← h]
      omega
    | malformed => simp [hr] at h
    | unmodelled => simp [hr] at h
  · split at h
    · split at h
      · cases h
      · simp only [protobuf.Decoded.value.injEq] at h
        rw [← h, List.length_drop]
        omega
    · split at h
      · cases hr : protobuf.readBytes buf with
        | value r =>
          have hl := protobuf.readBytes_length buf r.1 r.2 hr
          simp only [hr, protobuf.Decoded.value.injEq] at h
          rw [← h]
          omega
        | malformed => simp [hr] at h
        | unmodelled => simp [hr] at h
      · split at h
        · split at h
          · cases h
          · simp only [protobuf.Decoded.value.injEq] at h
            rw [← h, List.length_drop]
            omega
        · split at h <;> cases h

theorem protobuf.skipGroup_length (fuel : Nat) (groups : List Nat) (buf rest : List UInt8)
    (h : protobuf.skipGroup fuel groups buf = .value rest) : rest.length ≤ buf.length := by
  induction fuel generalizing groups buf with
  | zero =>
    cases groups with
    | nil =>
      simp only [protobuf.skipGroup, protobuf.Decoded.value.injEq] at h
      rw [h]
    | cons num more => simp [protobuf.skipGroup] at h
  | succ fuel ih =>
    cases groups with
    | nil =>
      simp only [protobuf.skipGroup, protobuf.Decoded.value.injEq] at h
      rw [h]
    | cons num more =>
      rw [protobuf.skipGroup] at h
      cases hr : protobuf.readVarint buf with
      | value r =>
        obtain ⟨x, tl⟩ := r
        have hl := protobuf.readVarint_length buf x tl hr
        simp only [hr] at h
        split at h
        · cases h
        · split at h
          · split at h
            · have := ih _ _ h
              omega
            · cases h
          · split at h
            · split at h
              · have := ih _ _ h
                omega
              · cases h
            · cases hs : protobuf.skipValue (x % 8) tl with
              | value r2 =>
                have hl2 := protobuf.skipValue_length _ _ _ hs
                simp only [hs] at h
                have := ih _ _ h
                omega
              | malformed => simp [hs] at h
              | unmodelled => simp [hs] at h
      | malformed => simp [hr] at h
      | unmodelled => simp [hr] at h

theorem protobuf.skipGroup_nil (fuel : Nat) (buf : List UInt8) :
    protobuf.skipGroup fuel [] buf = .value buf := by
  cases fuel <;> rfl

theorem protobuf.skipGroup_fuel (f1 f2 : Nat) (groups : List Nat) (buf : List UInt8)
    (h1 : buf.length < f1) (h2 : buf.length < f2) :
    protobuf.skipGroup f1 groups buf = protobuf.skipGroup f2 groups buf := by
  induction f1 generalizing f2 groups buf with
  | zero => omega
  | succ f1 ih =>
    cases groups with
    | nil => rw [protobuf.skipGroup_nil, protobuf.skipGroup_nil]
    | cons num more =>
      obtain ⟨f2, rfl⟩ : ∃ i, f2 = i + 1 := ⟨f2 - 1, by omega⟩
      simp only [protobuf.skipGroup]
      cases hr : protobuf.readVarint buf with
      | value r =>
        obtain ⟨x, rest⟩ := r
        have hl := protobuf.readVarint_length _ _ _ hr
        simp only
        split
        · rfl
        · split
          · split
            · exact ih f2 _ rest (by omega) (by omega)
            · rfl
          · split
            · split
              · exact ih f2 _ rest (by omega) (by omega)
              · rfl
            · cases hs : protobuf.skipValue (x % 8) rest with
              | value rest2 =>
                have hl2 := protobuf.skipValue_length _ _ _ hs
                simp only
                exact ih f2 _ rest2 (by omega) (by omega)
              | malformed => rfl
              | unmodelled => rfl
      | malformed => rfl
      | unmodelled => rfl

theorem protobuf.skipField_length (num wire : Nat) (buf : List UInt8) (m0 : pb.MockOS)
    (rest : List UInt8) (m : pb.MockOS)
    (h : protobuf.skipField num wire buf m0 = .value (rest, m)) :
    rest.length ≤ buf.length := by
  unfold protobuf.skipField at h
  by_cases hw : wire = 3
  · simp only [hw, if_true] at h
    cases hs : protobuf.skipGroup (buf.length + 1) [num] buf with
    | value r =>
      simp only [hs, protobuf.Decoded.value.injEq, Prod.mk.injEq] at h
      rw [← h.1]
      exact protobuf.skipGroup_length _ _ _ _ hs
    | malformed => simp [hs] at h
    | unmodelled => simp [hs] at h
  · simp only [hw, if_false] at h
    cases hs : protobuf.skipValue wire buf with
    | value r =>
      simp only [hs, protobuf.Decoded.value.injEq, Prod.mk.injEq] at h
      rw [← h.1]
      exact protobuf.skipValue_length _ _ _ hs
    | malformed => simp [hs] at h
    | unmodelled => simp [hs] at h

theorem protobuf.field_length (num wire : Nat) (buf : List UInt8) (m0 : pb.MockOS)
    (rest : List UInt8) (m : pb.MockOS)
    (h : protobuf.field num wire buf m0 = .value (rest, m)) : rest.length ≤ buf.length := by
  unfold protobuf.field at h
  split at h
  · cases h
  · split at h
    · exact protobuf.stringField_length _ _ _ _ h
    · split at h
      · exact protobuf.stringField_length _ _ _ _ h
      · split at h
        · exact protobuf.bytesField_length _ _ _ _ h
        · split at h
          · exact protobuf.boolField_length _ _ _ _ h
          · split at h
            · exact protobuf.stringField_length _ _ _ _ h
            · split at h
              · exact protobuf.bytesField_length _ _ _ _ h
              · exact protobuf.skipField_length _ _ _ _ _ _ h

theorem protobuf.fields_fuel (f1 f2 : Nat) (buf : List UInt8) (m : pb.MockOS)
    (h1 : buf.length ≤ f1) (h2 : buf.length ≤ f2) :
    protobuf.fields f1 buf m = protobuf.fields f2 buf m := by
  induction f1 generalizing f2 buf m with
  | zero =>
    have : buf = [] := by
      cases buf with
      | nil => rfl
      | cons b bs => simp at h1
    subst this
    rw [protobuf.fields_nil, protobuf.fields_nil]
  | succ f1 ih =>
    cases buf with
    | nil => rw [protobuf.fields_nil, protobuf.fields_nil]
    | cons b bs =>
      obtain ⟨f2, rfl⟩ : ∃ i, f2 = i + 1 := ⟨f2 - 1, by simp at h2; omega⟩
      simp only [protobuf.fields]
      cases hr : protobuf.readVarint (b :: bs) with
      | value r =>
        obtain ⟨x, rest⟩ := r
        have hl := protobuf.readVarint_length _ _ _ hr
        simp only
        cases hf : protobuf.field (x / 8) (x % 8) rest m with
        | value q =>
          obtain ⟨rest2, m2⟩ := q
          have hl2 := protobuf.field_length _ _ _ _ _ _ hf
          simp only [List.length_cons] at hl h1 h2
          exact ih f2 rest2 m2 (by omega) (by omega)
        | malformed => rfl
        | unmodelled => rfl
      | malformed => rfl
      | unmodelled => rfl

theorem protobuf.decode_eq_fields (fuel : Nat) (buf : List UInt8) (h : buf.length ≤ fuel) :
    protobuf.fields fuel buf {} = protobuf.decode buf :=
  protobuf.fields_fuel fuel buf.length buf {} h (le_refl _)

set_option maxRecDepth 100000 in
/-- An unknown field that is a group is skipped with all it contains: here group 7 holding
one varint field, followed by the version A. -/
theorem protobuf.decode_unknown_group :
    protobuf.decode [0x3B, 0x08, 0x01, 0x3C, 0x0A, 0x01, 0x41] = .value { Version := [0x41] } := by
  decide!

theorem protobuf.Unmarshal_of_Marshal (failure : GoError) (m : pb.MockOS) (out : List UInt8)
    (h : (protobuf.proto failure).Marshal m = .ok out) :
    (protobuf.proto failure).Unmarshal out = (m, none) := by
  have hm : protobuf.Marshal m = .value out := by
    simp only [protobuf.proto] at h
    cases hM : protobuf.Marshal m with
    | value o =>
      simp only [hM, Except.ok.injEq] at h
      rw [h]
    | malformed => simp [hM] at h
    | unmodelled => simp [hM] at h
  obtain ⟨hv, hlen, hout⟩ := protobuf.Marshal_eq m out hm
  have hd := protobuf.decode_of_encode m (lt_trans hlen (by norm_num))
  rw [hv, if_pos rfl, ← hout] at hd
  simp [protobuf.proto, hd]

/-! ## The flag changed after the digest was embedded -/

theorem ValidateOS_flag_flipped (proto : Proto) (source : Nat → UInt8) (version : GoString)
    (n : Nat) (msg : GoString) (out : List UInt8)
    (hdecode : proto.Unmarshal out =
      ({ (GenerateOS.mockOs source version n msg false).MockOS with Incompatible := true },
        none)) :
    (ValidateOS proto out).1 = none ∧
    (ValidateOS proto out
        = (none, some (errors.New (str "Hash check failed!")),
            some ⟨{ Type_ := .INTEGRITY_FAIL }⟩) ↔
      md5.Sum (version ++ cookie ++ rand.Read source (make n) ++ [0] ++ msg)
        ≠ md5.Sum (version ++ cookie ++ rand.Read source (make n) ++ [1] ++ msg)) ∧
    (ValidateOS proto out
        = (none, some (errors.New (str "OS Unsupported!")),
            some ⟨{ Type_ := .INCOMPATIBLE, Detail := str "Unsupported OS Version" }⟩) ↔
      md5.Sum (version ++ cookie ++ rand.Read source (make n) ++ [0] ++ msg)
        = md5.Sum (version ++ cookie ++ rand.Read source (make n) ++ [1] ++ msg)) := by
  have hstored : (GenerateOS.mockOs source version n msg false).MockOS.Hash
      = md5.Sum (version ++ cookie ++ rand.Read source (make n) ++ [0] ++ msg) := by
    rw [(mockOs_fields source version n msg false).2.2.2.2.2.2, calcHash_eq_Sum]
    rfl
  have hnew : calcHash
      ⟨{ (GenerateOS.mockOs source version n msg false).MockOS with Incompatible := true }⟩
      = md5.Sum (version ++ cookie ++ rand.Read source (make n) ++ [1] ++ msg) := by
    rw [calcHash_eq_Sum]
    rfl
  rcases ValidateOS_cases proto out with ⟨e, he, _⟩ | ⟨_, hh, hv⟩ | ⟨_, hh, _, hv⟩ |
      ⟨_, _, hi, _⟩
  · rw [hdecode] at he
    cases he
  · rw [hdecode] at hh
    have hne : md5.Sum (version ++ cookie ++ rand.Read source (make n) ++ [0] ++ msg)
        ≠ md5.Sum (version ++ cookie ++ rand.Read source (make n) ++ [1] ++ msg) := by
      intro h
      have ht : OS.CheckHash
          ⟨{ (GenerateOS.mockOs source version n msg false).MockOS with
              Incompatible := true }⟩ = true :=
        (CheckHash_iff _).2 (hstored.trans (h.trans hnew.symm))
      exact Bool.false_ne_true (hh.symm.trans ht)
    rw [hv]
    exact ⟨rfl, ⟨fun _ => hne, fun _ => rfl⟩,
      ⟨fun h => absurd h (by decide), fun h => absurd h hne⟩⟩
  · rw [hdecode] at hh
    have heq : md5.Sum (version ++ cookie ++ rand.Read source (make n) ++ [0] ++ msg)
        = md5.Sum (version ++ cookie ++ rand.Read source (make n) ++ [1] ++ msg) :=
      hstored.symm.trans (((CheckHash_iff _).1 hh).trans hnew)
    rw [hv]
    exact ⟨rfl, ⟨fun h => absurd h (by decide), fun h => absurd heq h⟩,
      ⟨fun _ => heq, fun _ => rfl⟩⟩
  · rw [hdecode] at hi
    cases hi

set_option maxRecDepth 100000 in
theorem ValidateOS_flag_flipped_sample :
    ValidateOS (protobuf.proto sampleFailure) (protobuf.encode corruptedOS.MockOS)
      = (none, some (errors.New (str "Hash check failed!")),
          some ⟨{ Type_ := .INTEGRITY_FAIL }⟩) := by
  decide!

theorem protobuf.ValidateOS_set (proto : Proto) (hagree : protobuf.Agrees proto)
    (m : pb.MockOS) (out : List UInt8) (r : protobuf.Region) (i : Nat) (b : UInt8)
    (hm : protobuf.Marshal m = .value out) (hi : i < (r.get m).length) :
    out.set (r.start m + i) b = protobuf.encode (r.put m ((r.get m).set i b)) ∧
    (protobuf.validStrings (r.put m ((r.get m).set i b)) = false →
      ∃ e, ValidateOS proto (out.set (r.start m + i) b)
        = (none, some e, some ⟨{ Type_ := .PARSE_FAIL }⟩)) ∧
    (protobuf.validStrings (r.put m ((r.get m).set i b)) = true →
      proto.Unmarshal (out.set (r.start m + i) b) = (r.put m ((r.get m).set i b), none) ∧
      (ValidateOS proto (out.set (r.start m + i) b)
          = (none, some (errors.New (str "Hash check failed!")),
              some ⟨{ Type_ := .INTEGRITY_FAIL }⟩) ↔
        m.Hash ≠ calcHash ⟨r.put m ((r.get m).set i b)⟩)) := by
  obtain ⟨_, hlen, hout⟩ := protobuf.Marshal_eq m out hm
  have hset := protobuf.set_encode r m i b hi
  rw [← hout] at hset
  have hlen2 : (protobuf.encode (r.put m ((r.get m).set i b))).length < 2 ^ 64 := by
    rw [← hset, List.length_set, hout]
    exact lt_trans hlen (by norm_num)
  have hdec := protobuf.decode_of_encode _ hlen2
  rw [← hset] at hdec
  refine ⟨hset, ?_, ?_⟩
  · intro hv
    rw [hv] at hdec
    exact protobuf.ValidateOS_of_malformed proto hagree _ hdec
  · intro hv
    rw [hv] at hdec
    have hu := hagree.1 _ _ hdec
    refine ⟨hu, ?_⟩
    rcases ValidateOS_cases proto (out.set (r.start m + i) b) with ⟨e, he, _⟩ | ⟨_, hh, hval⟩ |
        ⟨_, hh, _, hval⟩ | ⟨_, hh, _, hval⟩
    · rw [hu] at he
      cases he
    · rw [hu] at hh
      have hh2 : OS.CheckHash ⟨r.put m ((r.get m).set i b)⟩ = false := hh
      have hne : (r.put m ((r.get m).set i b)).Hash
          ≠ calcHash ⟨r.put m ((r.get m).set i b)⟩ := by
        intro h
        have ht : OS.CheckHash ⟨r.put m ((r.get m).set i b)⟩ = true := (CheckHash_iff _).2 h
        exact Bool.false_ne_true (hh2.symm.trans ht)
      rw [protobuf.Hash_put] at hne
      simp [hval, hne]
    · rw [hu] at hh
      have hh2 : OS.CheckHash ⟨r.put m ((r.get m).set i b)⟩ = true := hh
      have heq := (CheckHash_iff _).1 hh2
      rw [protobuf.Hash_put] at heq
      simp [hval]
      exact heq
    · rw [hu] at hh
      have hh2 : OS.CheckHash ⟨r.put m ((r.get m).set i b)⟩ = true := hh
      have heq := (CheckHash_iff _).1 hh2
      rw [protobuf.Hash_put] at heq
      simp [hval]
      exact heq

theorem protobuf.enc_hash (h : List UInt8) (hlen : h.length = 16) :
    (protobuf.Field.hash h).enc = 50 :: 16 :: h := by
  simp [protobuf.Field.enc, protobuf.putLen, protobuf.numHash, protobuf.putVarint, hlen]

theorem protobuf.after_ends_with_hash (r : protobuf.Region) (m : pb.MockOS)
    (hh : m.Hash ≠ []) : ∃ pre, r.after m = pre ++ [protobuf.Field.hash m.Hash] := by
  cases r
  · exact ⟨_, by
      simp only [protobuf.Region.after, hh, if_false]
      rw [← List.append_assoc, ← List.append_assoc, ← List.append_assoc]⟩
  · exact ⟨_, by
      simp only [protobuf.Region.after, hh, if_false]
      rw [← List.append_assoc, ← List.append_assoc]⟩
  · exact ⟨_, by
      simp only [protobuf.Region.after, hh, if_false]
      rw [← List.append_assoc]⟩
  · exact ⟨[], by simp [protobuf.Region.after, hh]⟩

theorem protobuf.digest_record_last (m : pb.MockOS) (out : List UInt8) (r : protobuf.Region)
    (j : Nat) (hm : protobuf.Marshal m = .value out) (hlen : m.Hash.length = 16)
    (hlo : r.recordStart m ≤ j) (hhi : j < r.recordStart m + r.recordLength m) :
    j < out.length - 18 ∧ out.drop (out.length - 18) = 50 :: 16 :: m.Hash := by
  obtain ⟨_, _, hout⟩ := protobuf.Marshal_eq m out hm
  have hne : r.get m ≠ [] := by
    intro h
    simp only [protobuf.Region.recordLength, h, if_true] at hhi
    omega
  have hh : m.Hash ≠ [] := by
    intro h
    rw [h] at hlen
    simp at hlen
  obtain ⟨pre, hpre⟩ := protobuf.after_ends_with_hash r m hh
  have henc : out = protobuf.encodeFields (r.before m)
      ++ ((r.field (r.get m)).enc ++ protobuf.encodeFields pre) ++ (50 :: 16 :: m.Hash) := by
    rw [hout, protobuf.encode, protobuf.present_region r m hne, hpre,
      ← protobuf.enc_hash m.Hash hlen]
    simp [protobuf.encodeFields]
  have hl : out.length = (protobuf.encodeFields (r.before m)).length
      + ((r.field (r.get m)).enc.length + (protobuf.encodeFields pre).length) + 18 := by
    have hl0 := congrArg List.length henc
    simp only [List.length_append, List.length_cons, hlen] at hl0
    omega
  simp only [protobuf.Region.recordLength, hne, if_false, protobuf.Region.recordStart]
    at hlo hhi
  refine ⟨by omega, ?_⟩
  have hd : out.length - 18 = (protobuf.encodeFields (r.before m)
      ++ ((r.field (r.get m)).enc ++ protobuf.encodeFields pre)).length := by
    rw [hl]
    simp
  rw [hd]
  conv_lhs => rw [henc]
  rw [List.drop_left]

theorem set_ne_of_getElem (x : List UInt8) (i : Nat) (b : UInt8)
    (hi : i < x.length) (hb : x[i]? ≠ some b) : x.set i b ≠ x := by
  intro h
  apply hb
  rw [← h]
  simp [hi]

theorem protobuf.getElem_header_payload (a v p c : List UInt8) (t : UInt8) (i : Nat)
    (hi : i < p.length) :
    (a ++ (t :: (v ++ p) ++ c))[a.length + 1 + v.length + i]? = p[i]? := by
  have h2 : a.length + 1 + v.length + i - a.length = (v.length + i) + 1 := by omega
  rw [List.getElem?_append_right (by omega), h2, List.cons_append, List.getElem?_cons_succ,
    List.getElem?_append_left (by rw [List.length_append]; omega),
    List.getElem?_append_right (by omega)]
  simp

theorem protobuf.getElem_encode (r : protobuf.Region) (m : pb.MockOS) (i : Nat)
    (hi : i < (r.get m).length) :
    (protobuf.encode m)[r.start m + i]? = (r.get m)[i]? := by
  have hne : r.get m ≠ [] := by
    intro h
    rw [h] at hi
    simp at hi
  obtain ⟨t, ht⟩ := protobuf.enc_region r
  have he : protobuf.encode m = protobuf.encodeFields (r.before m)
      ++ (t :: (protobuf.putVarint 10 (r.get m).length ++ r.get m)
        ++ protobuf.encodeFields (r.after m)) := by
    rw [protobuf.encode, protobuf.present_region r m hne]
    simp [protobuf.encodeFields, ht (r.get m)]
  rw [he, protobuf.Region.start]
  exact protobuf.getElem_header_payload _ _ _ _ _ i hi

theorem protobuf.concat_put_ne (r : protobuf.Region) (m : pb.MockOS) (i : Nat) (b : UInt8)
    (hi : i < (r.get m).length) (hb : (r.get m)[i]? ≠ some b) :
    m.Version ++ m.Cookie ++ m.Padding ++ [if m.Incompatible then 1 else 0]
        ++ m.ActivationFailMessage
      ≠ (r.put m ((r.get m).set i b)).Version ++ (r.put m ((r.get m).set i b)).Cookie
        ++ (r.put m ((r.get m).set i b)).Padding
        ++ [if (r.put m ((r.get m).set i b)).Incompatible then 1 else 0]
        ++ (r.put m ((r.get m).set i b)).ActivationFailMessage := by
  intro h
  apply set_ne_of_getElem (r.get m) i b hi hb
  cases r
  · simp only [protobuf.Region.put, protobuf.Region.get, List.append_assoc] at h ⊢
    exact (List.append_cancel_right h).symm
  · simp only [protobuf.Region.put, protobuf.Region.get, List.append_assoc] at h ⊢
    exact (List.append_cancel_right (List.append_cancel_left h)).symm
  · simp only [protobuf.Region.put, protobuf.Region.get, List.append_assoc] at h ⊢
    exact (List.append_cancel_right (List.append_cancel_left (List.append_cancel_left h))).symm
  · simp only [protobuf.Region.put, protobuf.Region.get, List.append_assoc] at h ⊢
    exact (List.append_cancel_left (List.append_cancel_left (List.append_cancel_left
      (List.append_cancel_left h)))).symm

/-! ## Claims on the serialized bytes -/

/-- C12, as the code has it: for every package GenerateOS builds that the protocol-buffer
library serializes, take one byte inside the serialized version, cookie, padding or
activationFailMessage field (its tag, its length or its payload) and change it; the digest
field, the last 18 bytes, is untouched. Validating the result yields PARSE_FAIL when the
codec fails to decode the changed bytes, which it does when a changed payload byte leaves a
string that is not valid UTF-8. When the changed bytes decode, the result is INTEGRITY_FAIL
if and only if the stored digest differs from the MD5 checksum of the concatenated decoded
fields, and otherwise it is INCOMPATIBLE or success according to the decoded flag. A
changed payload byte that leaves the strings valid decodes into the built package with that
one byte changed; the digest input is then a different byte string, and the result is
INTEGRITY_FAIL if and only if the MD5 checksums of the two digest inputs differ. -/
theorem ValidateOS_byte_changed (proto : Proto) (hagree : protobuf.Agrees proto)
    (source : Nat → UInt8) (version : GoString) (n : Nat) (msg : GoString)
    (incompatible : Bool) (m : pb.MockOS) (out : List UInt8) (r : protobuf.Region)
    (j : Nat) (b : UInt8)
    (hbuilt : m = (GenerateOS.mockOs source version n msg incompatible).MockOS)
    (hm : protobuf.Marshal m = .value out)
    (hlo : r.recordStart m ≤ j) (hhi : j < r.recordStart m + r.recordLength m) :
    m.Hash = md5.Sum (version ++ cookie ++ rand.Read source (make n)
      ++ [if incompatible then 1 else 0] ++ msg) ∧
    out.drop (out.length - 18) = 50 :: 16 :: m.Hash ∧
    (out.set j b).drop (out.length - 18) = out.drop (out.length - 18) ∧
    (∀ D e, proto.Unmarshal (out.set j b) = (D, some e) →
      ValidateOS proto (out.set j b) = (none, some e, some ⟨{ Type_ := .PARSE_FAIL }⟩)) ∧
    (∀ D, proto.Unmarshal (out.set j b) = (D, none) →
      (ValidateOS proto (out.set j b)
          = (none, some (errors.New (str "Hash check failed!")),
              some ⟨{ Type_ := .INTEGRITY_FAIL }⟩) ↔
        D.Hash ≠ md5.Sum (D.Version ++ D.Cookie ++ D.Padding
          ++ [if D.Incompatible then 1 else 0] ++ D.ActivationFailMessage)) ∧
      (D.Hash = md5.Sum (D.Version ++ D.Cookie ++ D.Padding
          ++ [if D.Incompatible then 1 else 0] ++ D.ActivationFailMessage) →
        ValidateOS proto (out.set j b) =
          if D.Incompatible then
            (none, some (errors.New (str "OS Unsupported!")),
              some ⟨{ Type_ := .INCOMPATIBLE, Detail := str "Unsupported OS Version" }⟩)
          else (some ⟨D⟩, none, none))) ∧
    (∀ i changed, j = r.start m + i → i < (r.get m).length →
      changed = r.put m ((r.get m).set i b) →
      out[j]? = (r.get m)[i]? ∧
      out.set j b = protobuf.encode changed ∧
      (protobuf.validStrings changed = false →
        ∃ e, ValidateOS proto (out.set j b)
          = (none, some e, some ⟨{ Type_ := .PARSE_FAIL }⟩)) ∧
      (protobuf.validStrings changed = true →
        proto.Unmarshal (out.set j b) = (changed, none) ∧
        (ValidateOS proto (out.set j b)
            = (none, some (errors.New (str "Hash check failed!")),
                some ⟨{ Type_ := .INTEGRITY_FAIL }⟩) ↔
          md5.Sum (m.Version ++ m.Cookie ++ m.Padding
              ++ [if m.Incompatible then 1 else 0] ++ m.ActivationFailMessage)
            ≠ md5.Sum (changed.Version ++ changed.Cookie ++ changed.Padding
              ++ [if changed.Incompatible then 1 else 0] ++ changed.ActivationFailMessage))) ∧
      (out[j]? ≠ some b →
        m.Version ++ m.Cookie ++ m.Padding
            ++ [if m.Incompatible then 1 else 0] ++ m.ActivationFailMessage
          ≠ changed.Version ++ changed.Cookie ++ changed.Padding
            ++ [if changed.Incompatible then 1 else 0] ++ changed.ActivationFailMessage)) := by
  subst hbuilt
  have hsum : ∀ os : OS, calcHash os
      = md5.Sum (os.MockOS.Version ++ os.MockOS.Cookie ++ os.MockOS.Padding
        ++ [if os.MockOS.Incompatible then 1 else 0] ++ os.MockOS.ActivationFailMessage) := by
    intro os
    simp only [calcHash, flagByte_eq]
  have hcheck : ∀ os : OS, os.CheckHash = true ↔ os.MockOS.Hash = calcHash os := by
    intro os
    simp only [OS.CheckHash, beq_iff_eq, bytes.Compare_eq_zero_iff]
  have hf := mockOs_fields source version n msg incompatible
  have hown := hf.2.2.2.2.2.2
  rw [hsum] at hown
  have hval : ∀ D, proto.Unmarshal (out.set j b) = (D, none) →
      (ValidateOS proto (out.set j b)
          = (none, some (errors.New (str "Hash check failed!")),
              some ⟨{ Type_ := .INTEGRITY_FAIL }⟩) ↔
        D.Hash ≠ md5.Sum (D.Version ++ D.Cookie ++ D.Padding
          ++ [if D.Incompatible then 1 else 0] ++ D.ActivationFailMessage)) ∧
      (D.Hash = md5.Sum (D.Version ++ D.Cookie ++ D.Padding
          ++ [if D.Incompatible then 1 else 0] ++ D.ActivationFailMessage) →
        ValidateOS proto (out.set j b) =
          if D.Incompatible then
            (none, some (errors.New (str "OS Unsupported!")),
              some ⟨{ Type_ := .INCOMPATIBLE, Detail := str "Unsupported OS Version" }⟩)
          else (some ⟨D⟩, none, none)) := by
    intro D hu
    have hs := hsum ⟨D⟩
    simp only at hs
    rw [← hs]
    by_cases hh : D.Hash = calcHash ⟨D⟩
    · have hc := (hcheck ⟨D⟩).2 hh
      cases hi : D.Incompatible <;> simp [ValidateOS, hu, hc, hi, hh]
    · have hc : OS.CheckHash ⟨D⟩ = false := by
        rw [← Bool.not_eq_true, hcheck]
        exact hh
      simp [ValidateOS, hu, hc, hh]
  have htail := protobuf.digest_record_last _ out r j hm
    (by rw [hf.2.2.2.2.2.2, hsum, md5.length_Sum]) hlo hhi
  refine ⟨?_, htail.2, List.drop_set_of_lt b out htail.1, ?_, hval, ?_⟩
  · exact hown
  · intro D e hu
    simp only [ValidateOS, hu]
  · intro i changed hj hi hc
    subst hj
    subst hc
    have h := protobuf.ValidateOS_set proto hagree _ out r i b hm hi
    have hget := protobuf.getElem_encode r _ i hi
    rw [← (protobuf.Marshal_eq _ out hm).2.2] at hget
    refine ⟨hget, h.1, h.2.1, ?_, ?_⟩
    · intro hv
      refine ⟨(h.2.2 hv).1, ?_⟩
      rw [← hown, ← protobuf.Hash_put r _ ((r.get _).set i b)]
      exact (hval _ (h.2.2 hv).1).1
    · intro hb
      rw [hget] at hb
      exact protobuf.concat_put_ne r _ i b hi hb

set_option maxRecDepth 100000 in
/-- C12 at a concrete input: in the serialization of the sample package the first padding
byte, at offset 23 of the padding field that starts at offset 21, is replaced by 0; the
bytes decode and the result is INTEGRITY_FAIL. -/
theorem ValidateOS_byte_changed_witness :
    protobuf.Region.recordStart .padding sampleOS.MockOS = 21 ∧
    protobuf.Region.start .padding sampleOS.MockOS = 23 ∧
    (protobuf.encode sampleOS.MockOS)[23]? ≠ some 0 ∧
    ValidateOS (protobuf.proto sampleFailure) ((protobuf.encode sampleOS.MockOS).set 23 0)
      = (none, some (errors.New (str "Hash check failed!")),
          some ⟨{ Type_ := .INTEGRITY_FAIL }⟩) :=
  ⟨by decide!, by decide!, by decide!,
   (((ValidateOS_byte_changed (protobuf.proto sampleFailure)
      (protobuf.Agrees_proto sampleFailure) sampleSource (str "1.2.3") 4
      [] false sampleOS.MockOS (protobuf.encode sampleOS.MockOS) .padding 23 0 rfl
      (by decide!) (by decide!) (by decide!)).2.2.2.2.2 0 _ (by decide!) (by decide!)
        rfl).2.2.2.1 (by decide!)).2.2 (by decide!)⟩

set_option maxRecDepth 100000 in
/-- C12 fails as stated, in both directions. First, the sample package is built and
serialized, its version field occupies the offsets 0 to 6, and replacing the byte at offset
2, the first byte of the payload, by 0xFF makes validation answer PARSE_FAIL, not
INTEGRITY_FAIL: the version is no longer valid UTF-8 and the library refuses it. Second,
the package built with the empty version is serialized with the cookie field at the offsets
0 to 13 and the digest field at the offsets 20 to 37; replacing the byte at offset 0, the tag of the cookie, by the tag of the version
leaves the digest field untouched, the bytes decode into a package whose version is
cookiestring and whose cookie is empty, the digest input is the same byte string as before,
and validation returns this package with success, not INTEGRITY_FAIL. -/
theorem changed_byte_is_not_integrity_fail :
    (protobuf.Marshal sampleOS.MockOS = .value (protobuf.encode sampleOS.MockOS) ∧
      protobuf.Region.recordStart .version sampleOS.MockOS = 0 ∧
      protobuf.Region.recordLength .version sampleOS.MockOS = 7 ∧
      ((protobuf.encode sampleOS.MockOS).set 2 0xFF).drop 27
        = (protobuf.encode sampleOS.MockOS).drop 27 ∧
      (protobuf.encode sampleOS.MockOS).drop 27 = 50 :: 16 :: sampleOS.MockOS.Hash ∧
      (protobuf.encode sampleOS.MockOS).take 3 = [10, 5, 49] ∧
      protobuf.decode ((protobuf.encode sampleOS.MockOS).set 2 0xFF) = .malformed ∧
      (ValidateOS (protobuf.proto sampleFailure)
        ((protobuf.encode sampleOS.MockOS).set 2 0xFF)).1 = none ∧
      (ValidateOS (protobuf.proto sampleFailure)
        ((protobuf.encode sampleOS.MockOS).set 2 0xFF)).2.2
          = some ⟨{ Type_ := .PARSE_FAIL }⟩) ∧
    (protobuf.Marshal emptyVersionOS.MockOS = .value (protobuf.encode emptyVersionOS.MockOS) ∧
      protobuf.Region.recordStart .cookie emptyVersionOS.MockOS = 0 ∧
      protobuf.Region.recordLength .cookie emptyVersionOS.MockOS = 14 ∧
      (protobuf.encode emptyVersionOS.MockOS).take 1 = [18] ∧
      ((protobuf.encode emptyVersionOS.MockOS).set 0 10).drop 20
        = (protobuf.encode emptyVersionOS.MockOS).drop 20 ∧
      (protobuf.encode emptyVersionOS.MockOS).drop 20
        = 50 :: 16 :: emptyVersionOS.MockOS.Hash ∧
      protobuf.decode ((protobuf.encode emptyVersionOS.MockOS).set 0 10)
        = .value { emptyVersionOS.MockOS with Version := cookie, Cookie := [] } ∧
      ValidateOS (protobuf.proto sampleFailure)
          ((protobuf.encode emptyVersionOS.MockOS).set 0 10)
        = (some ⟨{ emptyVersionOS.MockOS with Version := cookie, Cookie := [] }⟩,
            none, none)) := by
  decide!

/-- C14, as the code has it: for a package that the protocol-buffer codec serializes, built
packages among them, validating the first k bytes of the serialization, k smaller than its
length, yields PARSE_FAIL when the cut falls inside a field; when the cut falls between two
fields, the empty byte sequence included, the bytes decode without error and the result is
not PARSE_FAIL; the empty byte sequence yields INTEGRITY_FAIL. -/
theorem ValidateOS_truncated (proto : Proto) (hagree : protobuf.Agrees proto)
    (m : pb.MockOS) (out : List UInt8) (k : Nat)
    (hm : protobuf.Marshal m = .value out) (hk : k < out.length) :
    (protobuf.wholeFields (protobuf.present m) k = none →
      ∃ e, ValidateOS proto (out.take k) = (none, some e, some ⟨{ Type_ := .PARSE_FAIL }⟩)) ∧
    (protobuf.wholeFields (protobuf.present m) k ≠ none →
      (proto.Unmarshal (out.take k)).2 = none ∧
      (ValidateOS proto (out.take k)).2.2 ≠ some ⟨{ Type_ := .PARSE_FAIL }⟩) ∧
    protobuf.wholeFields (protobuf.present m) 0 ≠ none ∧
    ValidateOS proto (out.take 0)
      = (none, some (errors.New (str "Hash check failed!")),
          some ⟨{ Type_ := .INTEGRITY_FAIL }⟩) := by
  obtain ⟨hv, hlen, hout⟩ := protobuf.Marshal_eq m out hm
  subst hout
  have hd := protobuf.decode_take m (lt_trans hlen (by norm_num)) hv k (le_of_lt hk)
  refine ⟨?_, ?_, ?_, ?_⟩
  · intro hw
    rw [hw] at hd
    exact protobuf.ValidateOS_of_malformed proto hagree _ hd
  · intro hw
    cases hj : protobuf.wholeFields (protobuf.present m) k with
    | none => exact absurd hj hw
    | some j =>
      rw [hj] at hd
      have hu := hagree.1 _ _ hd
      have hnone : (proto.Unmarshal ((protobuf.encode m).take k)).2 = none := by rw [hu]
      exact ⟨hnone, ValidateOS_not_parse_fail proto _ hnone⟩
  · cases hp : protobuf.present m <;> simp [protobuf.wholeFields]
  · rw [List.take_zero]
    exact protobuf.ValidateOS_nil proto hagree

set_option maxRecDepth 100000 in
/-- C14 at a concrete input: the serialization of the sample package cut after 3 bytes,
inside the version field, yields PARSE_FAIL. -/
theorem ValidateOS_truncated_witness :
    ∃ e, ValidateOS (protobuf.proto sampleFailure) ((protobuf.encode sampleOS.MockOS).take 3)
      = (none, some e, some ⟨{ Type_ := .PARSE_FAIL }⟩) :=
  (ValidateOS_truncated (protobuf.proto sampleFailure) (protobuf.Agrees_proto sampleFailure) sampleOS.MockOS
    (protobuf.encode sampleOS.MockOS) 3 (by decide!) (by decide!)).1 (by decide!)

set_option maxRecDepth 100000 in
/-- C14 fails as stated: the sample package is built and serialized into 45 bytes; the empty
byte sequence and the first 7 bytes (the whole version field) are proper prefixes of the
serialization, the codec decodes both without error, and validating them yields
INTEGRITY_FAIL, not PARSE_FAIL. -/
theorem truncated_is_integrity_fail :
    protobuf.Marshal sampleOS.MockOS = .value (protobuf.encode sampleOS.MockOS) ∧
    (protobuf.encode sampleOS.MockOS).length = 45 ∧
    ((protobuf.proto sampleFailure).Unmarshal ((protobuf.encode sampleOS.MockOS).take 0)).2 = none ∧
    ValidateOS (protobuf.proto sampleFailure) ((protobuf.encode sampleOS.MockOS).take 0)
      = (none, some (errors.New (str "Hash check failed!")),
          some ⟨{ Type_ := .INTEGRITY_FAIL }⟩) ∧
    ((protobuf.proto sampleFailure).Unmarshal ((protobuf.encode sampleOS.MockOS).take 7)).2 = none ∧
    ValidateOS (protobuf.proto sampleFailure) ((protobuf.encode sampleOS.MockOS).take 7)
      = (none, some (errors.New (str "Hash check failed!")),
          some ⟨{ Type_ := .INTEGRITY_FAIL }⟩) := by
  decide!
